import Mathlib

/-!
# tiny_task_scheduler: the ranking core of `src/main.go`

Shallow embedding of the scoring functions (`clamp`, `urgencyScore`, `fitScore`,
`emotionScore`, `stressMatchScore`, `score`), of the comparator and the `sort.Slice` call of
the `/order` handler, of the selection loop of the `/next` handler, of the query decoding of
both, and of the task store with `load`, `save` and the `/tasks` handlers.

Modelling decisions.

* `float64`. A value is `F64`: NaN, minus infinity, plus infinity, or a finite value carried as
  an exact real number. The IEEE-754 rules for the special values are kept (NaN propagates and
  fails every ordered comparison, `math.Log10` of a negative number is NaN and of zero is minus
  infinity). Rounding of finite results is not modelled, and the sign of zero is not tracked
  (no reachable division has a zero divisor). Real numbers make these definitions
  non-executable; everything that does not touch `float64` is executable.
* `int`. Task fields are `Int`; the one integer operation of the source that can overflow,
  `t.Importance-1`, is wrapped to 64 bits by `wrap64`.
* `time.Time`. An instant is its number of nanoseconds since the Unix epoch. `time.Until(d)`
  reads the system clock: the reading is the explicit argument `wall`, kept apart from the
  argument `now` that the handlers pass down. One request is given one reading: the clock is
  taken not to advance between the comparator calls of a listing or the iterations of a
  selection. `time.Parse` belongs to the Go library and is the parameter `parse`.
* `sort.Slice`. The library sorts short slices (at most 12 elements) by insertion sort;
  `sortSlice` is that insertion sort. The evaluations below sort at most three elements.
* The task map. The handlers range over the map in an order the language leaves open; the
  argument `tasks` of `listTasks` and `nextTask` is the sequence of values in the order of that
  iteration. The map itself is a finite map (`Store`); `Ranges` relates it to the sequences an
  iteration can yield. `upsertTask`, `deleteTask` and `load` are the code paths run one at a
  time, without interleaving.
* `strconv.Atoi` and `url.Values.Get` belong to the Go library; `Atoi` follows the digit loop
  of `strconv.ParseUint` (the first bad character or the first overflow, whichever comes first,
  ends it) and the range handling of `strconv.ParseInt`; `Get` yields the empty string for a
  missing parameter.
* Locking. Each code path is also given as its sequence of operations on the mutex and the
  map (`loadOps`, `saveOps`, ...), checked against the lock discipline by `lockDisciplined`.
-/

namespace TaskScheduler

/-! ## `float64` -/

/-- Go `float64`: the IEEE-754 special values, or a finite value held as an exact real. -/
inductive F64 where
  | nan : F64
  | negInf : F64
  | posInf : F64
  | fin : ℝ → F64

namespace F64

/-- IEEE-754 addition (`+` on `float64`). -/
noncomputable def add : F64 → F64 → F64
  | fin a, fin b => fin (a + b)
  | nan, _ => nan
  | _, nan => nan
  | posInf, negInf => nan
  | negInf, posInf => nan
  | posInf, _ => posInf
  | _, posInf => posInf
  | negInf, _ => negInf
  | _, negInf => negInf

/-- IEEE-754 multiplication (`*` on `float64`). -/
noncomputable def mul : F64 → F64 → F64
  | fin a, fin b => fin (a * b)
  | nan, _ => nan
  | _, nan => nan
  | posInf, posInf => posInf
  | negInf, negInf => posInf
  | posInf, negInf => negInf
  | negInf, posInf => negInf
  | posInf, fin b => if b = 0 then nan else if 0 < b then posInf else negInf
  | negInf, fin b => if b = 0 then nan else if 0 < b then negInf else posInf
  | fin a, posInf => if a = 0 then nan else if 0 < a then posInf else negInf
  | fin a, negInf => if a = 0 then nan else if 0 < a then negInf else posInf

/-- IEEE-754 division (`/` on `float64`); a zero divisor is read as `+0`. -/
noncomputable def div : F64 → F64 → F64
  | fin a, fin b =>
    if b = 0 then (if a = 0 then nan else if 0 < a then posInf else negInf) else fin (a / b)
  | nan, _ => nan
  | _, nan => nan
  | fin _, posInf => fin 0
  | fin _, negInf => fin 0
  | posInf, fin b => if 0 ≤ b then posInf else negInf
  | negInf, fin b => if 0 ≤ b then negInf else posInf
  | _, _ => nan

noncomputable instance : Add F64 := ⟨add⟩
noncomputable instance : Mul F64 := ⟨mul⟩
noncomputable instance : Div F64 := ⟨div⟩

/-- Go `a < b` on `float64`: false as soon as one side is NaN. -/
noncomputable def lt : F64 → F64 → Bool
  | fin a, fin b => decide (a < b)
  | nan, _ => false
  | _, nan => false
  | negInf, negInf => false
  | negInf, _ => true
  | _, negInf => false
  | posInf, _ => false
  | fin _, posInf => true

/-- Go `a > b` on `float64`. -/
noncomputable def gt (a b : F64) : Bool := lt b a

/-- Go `a != b` on `float64`: true as soon as one side is NaN. -/
noncomputable def ne : F64 → F64 → Bool
  | fin a, fin b => decide (a ≠ b)
  | nan, _ => true
  | _, nan => true
  | negInf, negInf => false
  | posInf, posInf => false
  | _, _ => true

/-- Go `a >= b` on `float64`: false as soon as one side is NaN. -/
noncomputable def ge (a b : F64) : Bool := gt a b || !(ne a b)

/-- Go `a <= b` on `float64`. -/
noncomputable def le (a b : F64) : Bool := ge b a

/-- Go `math.Log10`: NaN below zero, minus infinity at zero. -/
noncomputable def log10 : F64 → F64
  | fin x => if x < 0 then nan else if x = 0 then negInf else fin (Real.logb 10 x)
  | posInf => posInf
  | _ => nan

/-- Go conversion `float64(n)` of an `int`. -/
noncomputable def ofInt (n : Int) : F64 := fin (n : ℝ)

end F64

open F64

/-! ## Machine integers and time -/

/-- Two's-complement wrap of an integer result to Go's 64-bit `int`. -/
def wrap64 (n : Int) : Int := (n + 2 ^ 63) % 2 ^ 64 - 2 ^ 63

/-- An instant (`time.Time`), in nanoseconds since the Unix epoch. -/
abbrev Time := Int

/-- Go `time.Time.Sub` on two instants: the difference in nanoseconds, saturated to the `int64`
range of `time.Duration`. -/
def Sub (t u : Int) : Int :=
  if t - u < -(2 ^ 63) then -(2 ^ 63) else if 2 ^ 63 - 1 < t - u then 2 ^ 63 - 1 else t - u

/-- Go `time.Until(d)`: `d.Sub(time.Now())`, where `wall` is the reading of the system clock. -/
def Until (wall d : Int) : Int := Sub d wall

/-- Go `time.Duration.Minutes`: the duration as a floating-point number of minutes. -/
noncomputable def Minutes (d : Int) : F64 := fin ((d : ℝ) / 60000000000)

/-- Go `time.Time.UnixNano`: nanoseconds since the epoch as an `int64` (wraps out of range). -/
def UnixNano (t : Int) : Int := wrap64 t

/-! ## Data model -/

/-- Go `type Emotion string`. -/
abbrev Emotion := String

def PLEASANT : Emotion := "PLEASANT"

def NEUTRAL : Emotion := "NEUTRAL"

def AVERSIVE : Emotion := "AVERSIVE"

/-- Go `type Task struct`. `DueAt` is the nullable string of the source. -/
structure Task where
  ID : String
  Title : String
  Emotion : Emotion
  MinutesNeeded : Int
  Importance : Int
  DueAt : Option String
  deriving DecidableEq

/-! ## Scoring (`src/main.go` lines 39-112) -/

/-- Source `clamp`. -/
noncomputable def clamp (v lo hi : F64) : F64 :=
  if v.lt lo then lo
  else if v.gt hi then hi
  else v

/-- Source `urgencyScore`. The argument `now` is not used by the source: the minutes left are
taken from `time.Until`, that is from the clock reading `wall`. -/
noncomputable def urgencyScore (wall : Time) (parse : String → Option Time) (t : Task)
    (_now : Time) : F64 :=
  match t.DueAt with
  | none => clamp (fin 0.15 * ofInt t.Importance) (fin 0) (fin 0.8)
  | some s =>
    match parse s with
    | none => clamp (fin 0.15 * ofInt t.Importance) (fin 0) (fin 0.8)
    | some d =>
      let minLeft := Minutes (Until wall d)
      let minLeft := if minLeft.lt (fin 0) then fin 0 else minLeft
      let timePressure := fin 1.0 / log10 (fin 10 + minLeft)
      let importanceBoost := fin 0.2 * ofInt (wrap64 (t.Importance - 1))
      clamp (timePressure + importanceBoost) (fin 0) (fin 1.5)

/-- Source `fitScore`. -/
noncomputable def fitScore (t : Task) (freeMin : Int) : F64 :=
  if freeMin ≤ 0 then fin 0
  else if t.MinutesNeeded ≤ freeMin then
    clamp (fin 0.6 + fin 0.4 * (fin 1.0 / (fin 1 + log10 (fin 1 + ofInt t.MinutesNeeded))))
      (fin 0) (fin 1)
  else
    let ratio := ofInt freeMin / ofInt t.MinutesNeeded
    clamp (fin 0.3 * ratio) (fin 0) (fin 1)

/-- Source `emotionScore`. -/
noncomputable def emotionScore (t : Task) (stress : Int) : F64 :=
  if t.Emotion = PLEASANT then
    if stress ≥ 4 then fin 0.30 else fin 0.15
  else if t.Emotion = NEUTRAL then fin 0.10
  else if t.Emotion = AVERSIVE then
    if stress ≥ 4 then fin (-0.10) else fin 0.05
  else fin 0

/-- Source `stressMatchScore`. -/
noncomputable def stressMatchScore (t : Task) (stress : Int) : F64 :=
  if stress ≥ 4 then
    clamp (fin 1.0 / (fin 1 + log10 (fin 5 + ofInt t.MinutesNeeded))) (fin 0) (fin 1)
  else if stress ≤ 2 then
    clamp (log10 (fin 10 + ofInt t.MinutesNeeded) / fin 3.0) (fin 0) (fin 1)
  else fin 0.5

/-- Source `score`: the weighted sum, added left to right as in the source. -/
noncomputable def score (wall : Time) (parse : String → Option Time) (t : Task) (now : Time)
    (freeMin stress : Int) : F64 :=
  fin 0.50 * urgencyScore wall parse t now +
    fin 0.25 * fitScore t freeMin +
    fin 0.15 * emotionScore t stress +
    fin 0.10 * stressMatchScore t stress

/-! ## Listing and selection (`/order` and `/next` handlers) -/

/-- The deadline key `di` of the `/order` comparator (lines 249-259): `1<<62` unless `DueAt` is
present and parses, in which case `UnixNano()` of the parsed instant. -/
def deadlineKey (parse : String → Option Time) (t : Task) : Int :=
  match t.DueAt with
  | none => 2 ^ 62
  | some s =>
    match parse s with
    | none => 2 ^ 62
    | some tt => UnixNano tt

/-- The comparator passed to `sort.Slice` by the `/order` handler (lines 242-264). -/
noncomputable def less (wall : Time) (parse : String → Option Time) (now : Time)
    (freeMin stress : Int) (a b : Task) : Bool :=
  let si := score wall parse a now freeMin stress
  let sj := score wall parse b now freeMin stress
  if si.ne sj then si.gt sj
  else
    let di := deadlineKey parse a
    let dj := deadlineKey parse b
    if di ≠ dj then decide (di < dj)
    else decide (a.MinutesNeeded < b.MinutesNeeded)

/-- Inner loop of insertion sort: `x` walks left over the sorted prefix, held here most recent
element first, while `less x p` holds for its left neighbour `p`. -/
def sinkLeft {α : Type} (less : α → α → Bool) (x : α) : List α → List α
  | [] => [x]
  | p :: rest => if less x p then p :: sinkLeft less x rest else x :: p :: rest

/-- Go `sort.Slice` as the insertion sort it runs on short slices. -/
def sortSlice {α : Type} (less : α → α → Bool) (arr : List α) : List α :=
  (arr.foldl (fun sorted x => sinkLeft less x sorted) []).reverse

/-- The `/order` handler after query decoding: `tasks` is the sequence produced by ranging over
the task map, the result is the sorted slice that is written back. -/
noncomputable def listTasks (wall : Time) (parse : String → Option Time) (tasks : List Task)
    (now : Time) (freeMin stress : Int) : List Task :=
  sortSlice (less wall parse now freeMin stress) tasks

/-- One iteration of the selection loop of the `/next` handler (lines 284-289); the state is
the pair `(best, bestScore)`. -/
noncomputable def nextStep (wall : Time) (parse : String → Option Time) (now : Time)
    (freeMin stress : Int) (st : Option Task × F64) (t : Task) : Option Task × F64 :=
  let s := score wall parse t now freeMin stress
  if s.gt st.2 then (some t, s) else st

/-- The `/next` handler after query decoding: `none` is the 204 answer. -/
noncomputable def nextTask (wall : Time) (parse : String → Option Time) (tasks : List Task)
    (now : Time) (freeMin stress : Int) : Option Task :=
  (tasks.foldl (nextStep wall parse now freeMin stress) (none, fin (-1.0))).1

/-! ## The task store and persistence (`load`, `save`, `/tasks` handlers) -/

/-- The package variable `tasks = map[string]Task{}`: a finite map from id to task. The order
in which a `range` loop visits it is not part of the value. -/
abbrev Store := Finmap (fun _ : String => Task)

/-- Go `len(tasks)`. -/
def Store.len (tasks : Store) : Nat := tasks.keys.card

/-- The sequences that `for _, t := range tasks` can produce: the values of the map, each
entry once, in the order of some listing of the entries. -/
def Ranges (tasks : Store) (arr : List Task) : Prop :=
  ∃ l : AList (fun _ : String => Task), l.toFinmap = tasks ∧ arr = l.entries.map Sigma.snd

/-- What a mutating handler answers: status 400 with a message, or `ok` with `count`. -/
inductive Reply where
  | badRequest : String → Reply
  | ok : Nat → Reply
  deriving DecidableEq

/-- The `POST /tasks` handler after the body is decoded into `t` (lines 195-203), run without
interleaving: the empty id is refused, otherwise `tasks[t.ID] = t` and the answer carries
`len(tasks)`. The call of `save` in between does not change the map. -/
def upsertTask (tasks : Store) (t : Task) : Store × Reply :=
  if t.ID = "" then (tasks, Reply.badRequest "id required")
  else
    let tasks := tasks.insert t.ID t
    (tasks, Reply.ok (Store.len tasks))

/-- The `DELETE /tasks/:id` handler (lines 215-220), run without interleaving:
`delete(tasks, id)` and the answer carries `len(tasks)`. -/
def deleteTask (tasks : Store) (id : String) : Store × Reply :=
  let tasks := tasks.erase id
  (tasks, Reply.ok (Store.len tasks))

/-- Source `load`. `decoded` is the content of the data file decoded as a task array, `none` when
the file cannot be read or decoded (the map is then left as it is). -/
def load (decoded : Option (List Task)) (tasks : Store) : Store :=
  match decoded with
  | none => tasks
  | some arr => arr.foldl (fun m t => m.insert t.ID t) ∅

/-- Source `save`, up to encoding: `written` is a slice that `save` can marshal to the data
file, the values of the map in the order of the iteration. -/
def save (tasks : Store) (written : List Task) : Prop := Ranges tasks written

/-- A run of `POST /tasks` requests, one per task of `ts`, in the order of the list. -/
def upsertAll (tasks : Store) (ts : List Task) : Store :=
  ts.foldl (fun m t => (upsertTask m t).1) tasks

/-- Every key of the store is the id of the task stored under it. -/
def KeyIsID (tasks : Store) : Prop :=
  ∀ (id : String) (t : Task), tasks.lookup id = some t → t.ID = id

/-- A mutating request: `POST /tasks` with a decoded task, or `DELETE /tasks/:id`. -/
inductive StoreOp where
  | upsert : Task → StoreOp
  | delete : String → StoreOp

/-- The store after one mutating request. -/
def applyOp (tasks : Store) : StoreOp → Store
  | StoreOp.upsert t => (upsertTask tasks t).1
  | StoreOp.delete id => (deleteTask tasks id).1

/-- The store after a sequence of mutating requests. -/
def applyOps (tasks : Store) (ops : List StoreOp) : Store := ops.foldl applyOp tasks

/-! ## Query decoding (`/order` lines 224-232, `/next` lines 269-277) -/

/-- The value of a string of decimal digits. -/
def digitsValue (ds : List Char) : Nat := ds.foldl (fun n c => n * 10 + (c.toNat - 48)) 0

/-- The integer that a decimal numeral denotes: an optional sign `+` or `-` followed by at least
one digit `0`..`9` and nothing else. `none` is the syntax error of `strconv`. -/
def decimal (s : String) : Option Int :=
  let cs := s.toList
  let ds := if cs.head? = some '-' ∨ cs.head? = some '+' then cs.tail else cs
  if ds.isEmpty || !ds.all Char.isDigit then none
  else if cs.head? = some '-' then some (-(digitsValue ds : Int))
  else some (digitsValue ds : Int)

/-- The characters after an optional leading sign `+` or `-`. -/
def afterSign (s : String) : List Char :=
  if s.toList.head? = some '-' ∨ s.toList.head? = some '+' then s.toList.tail else s.toList

/-- Whether the string starts with a minus sign. -/
def hasMinus (s : String) : Bool := decide (s.toList.head? = some '-')

/-- What `strconv.ParseUint` yields: a syntax error, a range error, or a value. -/
inductive UintResult where
  | syntaxError : UintResult
  | rangeError : UintResult
  | value : Nat → UintResult
  deriving DecidableEq

/-- The digit loop of Go `strconv.ParseUint(s, 10, 64)`, character by character from the left:
a character other than `0`..`9` is a syntax error, and a digit that takes the value above
2^64 - 1 is a range error; the loop stops at whichever comes first. -/
def parseUintLoop (n : Nat) : List Char → UintResult
  | [] => UintResult.value n
  | c :: cs =>
    if !c.isDigit then UintResult.syntaxError
    else if 2 ^ 64 - 1 < n * 10 + (c.toNat - 48) then UintResult.rangeError
    else parseUintLoop (n * 10 + (c.toNat - 48)) cs

/-- Go `strconv.ParseUint(s, 10, 64)`: the empty string is a syntax error. -/
def ParseUint (cs : List Char) : UintResult :=
  if cs.isEmpty then UintResult.syntaxError else parseUintLoop 0 cs

/-- Go `strconv.Atoi` with the error dropped, as both handlers call it (through
`strconv.ParseInt(s, 10, 0)`, with which its fast path for short strings agrees): 0 on a syntax
error; on a range error of `ParseUint`, or a value outside the `int` range, the bound of that
range on the side of the sign. -/
def Atoi (s : String) : Int :=
  match ParseUint (afterSign s) with
  | UintResult.syntaxError => 0
  | UintResult.rangeError => if hasMinus s then -(2 ^ 63) else 2 ^ 63 - 1
  | UintResult.value un =>
    if hasMinus s then (if 2 ^ 63 < un then -(2 ^ 63) else -(un : Int))
    else (if 2 ^ 63 ≤ un then 2 ^ 63 - 1 else (un : Int))

/-- The value of the digits that follow the optional sign, up to the first character that is
not a digit. -/
def leadingValue (s : String) : Nat :=
  digitsValue ((afterSign s).takeWhile Char.isDigit)

/-- Go `url.Values.Get`: the value of the query parameter, the empty string when it is missing. -/
def Get (param : Option String) : String := param.getD ""

/-- The pair `(freeMin, stress)` that the `/order` handler derives from the query
(lines 224-232). -/
def orderContext (freeMin stress : Option String) : Int × Int :=
  let freeMin := Atoi (Get freeMin)
  let freeMin := if freeMin = 0 then 30 else freeMin
  let stress := Atoi (Get stress)
  let stress := if stress = 0 then 3 else stress
  (freeMin, stress)

/-- The pair `(freeMin, stress)` that the `/next` handler derives from the query
(lines 269-277). -/
def nextContext (freeMin stress : Option String) : Int × Int :=
  let freeMin := Atoi (Get freeMin)
  let freeMin := if freeMin = 0 then 30 else freeMin
  let stress := Atoi (Get stress)
  let stress := if stress = 0 then 3 else stress
  (freeMin, stress)

/-- The `/order` handler: query decoding, then the listing of the tasks ranged over. `now` is
the result of `time.Now()` at line 233. -/
noncomputable def orderHandler (wall : Time) (parse : String → Option Time) (tasks : List Task)
    (now : Time) (freeMin stress : Option String) : List Task :=
  listTasks wall parse tasks now (orderContext freeMin stress).1 (orderContext freeMin stress).2

/-- The `/next` handler: query decoding, then the selection among the tasks ranged over. -/
noncomputable def nextHandler (wall : Time) (parse : String → Option Time) (tasks : List Task)
    (now : Time) (freeMin stress : Option String) : Option Task :=
  nextTask wall parse tasks now (nextContext freeMin stress).1 (nextContext freeMin stress).2

/-! ## Lock discipline: the operations of each code path on `mu` and `tasks` -/

/-- One operation of a goroutine on the mutex `mu` or on the map `tasks`. -/
inductive SyncOp where
  | lock : SyncOp
  | unlock : SyncOp
  | rlock : SyncOp
  | runlock : SyncOp
  | read : SyncOp
  | write : SyncOp
  deriving DecidableEq

/-- What the goroutine holds of `mu`. -/
inductive Held where
  | nothing : Held
  | shared : Held
  | exclusive : Held
  deriving DecidableEq

/-- One operation under the discipline "read `tasks` only while holding `mu` (shared or
exclusive), write it only while holding `mu` exclusively"; `none` is a breach. -/
def stepSync : Held → SyncOp → Option Held
  | Held.nothing, SyncOp.lock => some Held.exclusive
  | Held.exclusive, SyncOp.unlock => some Held.nothing
  | Held.nothing, SyncOp.rlock => some Held.shared
  | Held.shared, SyncOp.runlock => some Held.nothing
  | Held.shared, SyncOp.read => some Held.shared
  | Held.exclusive, SyncOp.read => some Held.exclusive
  | Held.exclusive, SyncOp.write => some Held.exclusive
  | _, _ => none

/-- A sequence of operations run from a given state. -/
def runSync (st : Option Held) (ops : List SyncOp) : Option Held :=
  ops.foldl (fun st op => st.bind (fun h => stepSync h op)) st

/-- The sequence starts and ends holding nothing and never breaches the discipline. -/
def lockDisciplined (ops : List SyncOp) : Bool :=
  decide (runSync (some Held.nothing) ops = some Held.nothing)

/-- Source `load` on a decoded array of `n` tasks (lines 121-126): `Lock`, the assignment
`tasks = map[string]Task{}`, `n` assignments `tasks[t.ID] = t`, deferred `Unlock`. -/
def loadOps (n : Nat) : List SyncOp :=
  [SyncOp.lock, SyncOp.write] ++ List.replicate n SyncOp.write ++ [SyncOp.unlock]

/-- Source `save` on a map of `n` tasks (lines 132-137): `RLock`, `len(tasks)`, `n` steps of the
`range` loop, `RUnlock`. The `GET /tasks` and `/order` handlers run the same sequence
(lines 182-187, 235-240). -/
def saveOps (n : Nat) : List SyncOp :=
  [SyncOp.rlock, SyncOp.read] ++ List.replicate n SyncOp.read ++ [SyncOp.runlock]

/-- The `/order` handler on a map of `n` tasks (lines 235-240). -/
def orderOps (n : Nat) : List SyncOp := saveOps n

/-- The `/next` handler on a map of `n` tasks (lines 280-291): `RLock`, `n` steps of the `range`
loop, `RUnlock`. -/
def nextOps (n : Nat) : List SyncOp :=
  [SyncOp.rlock] ++ List.replicate n SyncOp.read ++ [SyncOp.runlock]

/-- The `POST /tasks` handler with a non-empty id, the map holding `n` tasks afterwards
(lines 199-203): `Lock`, `tasks[t.ID] = t`, `Unlock`, `save()`, then `len(tasks)` for the
answer. -/
def upsertOps (n : Nat) : List SyncOp :=
  [SyncOp.lock, SyncOp.write, SyncOp.unlock] ++ saveOps n ++ [SyncOp.read]

/-- The `DELETE /tasks/:id` handler, the map holding `n` tasks afterwards (lines 216-220):
`Lock`, `delete(tasks, id)`, `Unlock`, `save()`, then `len(tasks)` for the answer. -/
def deleteOps (n : Nat) : List SyncOp :=
  [SyncOp.lock, SyncOp.write, SyncOp.unlock] ++ saveOps n ++ [SyncOp.read]

/-! ## Proof-side real arithmetic -/

/-- The real counterpart of `clamp` on finite arguments. -/
noncomputable def clampR (v lo hi : ℝ) : ℝ :=
  if v < lo then lo else if hi < v then hi else v

/-- Minutes left as `urgencyScore` computes them: the saturated difference to the clock reading,
in minutes, floored at zero. -/
noncomputable def minLeftR (wall d : Time) : ℝ :=
  if ((Until wall d : Int) : ℝ) / 60000000000 < 0 then 0 else ((Until wall d : Int) : ℝ) / 60000000000

/-! ## Sample inputs -/

/-- Task A of the ranking scenario of the specification (section 8): pleasant, 10 minutes,
importance 5, with a due date. -/
def scenarioA (id title due : String) : Task := ⟨id, title, PLEASANT, 10, 5, some due⟩

/-- Task B of the ranking scenario: aversive, 120 minutes, importance 1, no due date. -/
def scenarioB (id title : String) : Task := ⟨id, title, AVERSIVE, 120, 1, none⟩

/-- Five minutes, in nanoseconds. -/
def fiveMinutes : Int := 300000000000

/-- A finite table of RFC 3339 strings with the instants (nanoseconds since the epoch) that
`time.Parse(time.RFC3339, s)` returns for them; every other string is rejected. It stands for
`time.Parse` in the evaluations at concrete inputs, which use only these strings and strings
that `time.Parse` rejects as well. -/
def parseSample (s : String) : Option Time :=
  if s = "2020-01-01T00:00:00Z" then some 1577836800000000000
  else if s = "2020-01-02T00:00:00Z" then some 1577923200000000000
  else if s = "2200-01-01T00:00:00Z" then some 7258118400000000000
  else if s = "2400-01-01T00:00:00Z" then some 13569465600000000000
  else none

/-- The instant 2026-01-01T00:00:00Z, used as clock reading and evaluation instant. -/
def year2026 : Time := 1767225600000000000

/-- A nine-minute neutral task of importance 1 without due date. -/
def taskLo : Task := ⟨"lo", "low", NEUTRAL, 9, 1, none⟩

/-- A nine-minute neutral task of importance 5 without due date. -/
def taskHi : Task := ⟨"hi", "high", NEUTRAL, 9, 5, none⟩

/-- A task whose `minutesNeeded` is negative, as `POST /tasks` stores it unchecked. -/
def taskNeg : Task := ⟨"neg", "negative", NEUTRAL, -10, 3, none⟩

/-- A nine-minute neutral task of importance 3, overdue since 2020-01-01. -/
def taskDueFirst : Task := ⟨"first", "due 1 Jan 2020", NEUTRAL, 9, 3, some "2020-01-01T00:00:00Z"⟩

/-- The same task with a due date one day later, 2020-01-02. -/
def taskDueSecond : Task := ⟨"second", "due 2 Jan 2020", NEUTRAL, 9, 3, some "2020-01-02T00:00:00Z"⟩

/-- A nine-minute neutral task due on 2200-01-01, stored without `importance` (decoded as 0). -/
def taskFar : Task := ⟨"far", "due 1 Jan 2200", NEUTRAL, 9, 0, some "2200-01-01T00:00:00Z"⟩

/-- The same task without due date. -/
def taskOpen : Task := ⟨"open", "no due date", NEUTRAL, 9, 0, none⟩

/-- A pleasant five-minute task of importance 5, overdue since 2020-01-01. -/
def taskUrgent : Task := ⟨"urgent", "quick win", PLEASANT, 5, 5, some "2020-01-01T00:00:00Z"⟩

/-- The instant 2020-01-01T00:00:00Z. -/
def year2020 : Time := 1577836800000000000

/-- Ninety minutes, in nanoseconds. -/
def ninetyMinutes : Int := 5400000000000

/-- An overdue nine-minute task whose `importance` is the least 64-bit integer. -/
def taskMinImportance : Task :=
  ⟨"min", "least importance", NEUTRAL, 9, -9223372036854775808, some "2020-01-01T00:00:00Z"⟩

/-- A nine-minute task due exactly at 2020-01-01 whose `importance` is the least 64-bit integer
plus one. -/
def taskNextImportance : Task :=
  ⟨"next", "least importance plus one", NEUTRAL, 9, -9223372036854775807,
    some "2020-01-01T00:00:00Z"⟩

/-- A nine-minute task of importance 1 due on 2400-01-01, more than 2^63 nanoseconds after
2026-01-01. -/
def taskVeryFar : Task := ⟨"veryfar", "due 1 Jan 2400", NEUTRAL, 9, 1, some "2400-01-01T00:00:00Z"⟩

/-- The urgency of a task with a due date in the words of the specification (section 4.3):
time pressure `1 / log10(10 + m)` for `m` minutes remaining, plus the importance boost
`0.2 * (importance - 1)`, clamped to [0, 1.5]. -/
noncomputable def urgencyShapeSpec (m : ℝ) (importance : Int) : F64 :=
  clamp (fin (1 / Real.logb 10 (10 + m) + 0.2 * ((importance : ℝ) - 1))) (fin 0) (fin 1.5)

/-- A task record without id, as a hand-edited or foreign data file can hold it. -/
def taskNoID : Task := ⟨"", "no id", NEUTRAL, 9, 3, none⟩

/-! # Theorems -/

/-! ## Arithmetic of finite values -/

@[simp] theorem F64.fin_add_fin (a b : ℝ) : fin a + fin b = fin (a + b) := rfl

@[simp] theorem F64.fin_mul_fin (a b : ℝ) : fin a * fin b = fin (a * b) := rfl

theorem F64.fin_div_fin (a : ℝ) {b : ℝ} (hb : b ≠ 0) : fin a / fin b = fin (a / b) := by
  show F64.div (fin a) (fin b) = fin (a / b)
  simp [F64.div, hb]

@[simp] theorem F64.lt_fin_fin (a b : ℝ) : (fin a).lt (fin b) = decide (a < b) := rfl

@[simp] theorem F64.gt_fin_fin (a b : ℝ) : (fin a).gt (fin b) = decide (b < a) := rfl

@[simp] theorem F64.ne_fin_fin (a b : ℝ) : (fin a).ne (fin b) = decide (a ≠ b) := rfl

@[simp] theorem F64.ge_fin_fin (a b : ℝ) : (fin a).ge (fin b) = decide (b ≤ a) := by
  simp only [F64.ge, F64.gt_fin_fin, F64.ne_fin_fin]
  by_cases h : b ≤ a
  · rcases lt_or_eq_of_le h with h1 | h1
    · simp [h, h1]
    · simp [h1]
  · have h2 : ¬ b < a := fun h3 => h (le_of_lt h3)
    have h3 : a ≠ b := fun h4 => h (le_of_eq h4.symm)
    simp [h, h2, h3]

@[simp] theorem F64.le_fin_fin (a b : ℝ) : (fin a).le (fin b) = decide (a ≤ b) := by
  simp [F64.le]

theorem F64.log10_fin {x : ℝ} (hx : 0 < x) : log10 (fin x) = fin (Real.logb 10 x) := by
  simp [F64.log10, not_lt.mpr hx.le, hx.ne']

@[simp] theorem F64.ofInt_eq (n : Int) : ofInt n = fin (n : ℝ) := rfl

theorem clamp_fin (v lo hi : ℝ) : clamp (fin v) (fin lo) (fin hi) = fin (clampR v lo hi) := by
  unfold clamp clampR
  by_cases h1 : v < lo
  · simp [h1]
  · by_cases h2 : hi < v
    · simp [h1, h2]
    · simp [h1, h2]

theorem clampR_bounds (v : ℝ) {lo hi : ℝ} (h : lo ≤ hi) :
    lo ≤ clampR v lo hi ∧ clampR v lo hi ≤ hi := by
  unfold clampR
  split_ifs with h1 h2
  · exact ⟨le_refl _, h⟩
  · exact ⟨h, le_refl _⟩
  · exact ⟨not_lt.mp h1, not_lt.mp h2⟩

theorem clampR_mono {v w : ℝ} (lo hi : ℝ) (h : lo ≤ hi) (hvw : v ≤ w) :
    clampR v lo hi ≤ clampR w lo hi := by
  unfold clampR
  split_ifs <;> linarith

theorem clampR_of_mem {v lo hi : ℝ} (h1 : lo ≤ v) (h2 : v ≤ hi) : clampR v lo hi = v := by
  unfold clampR
  rw [if_neg (not_lt.mpr h1), if_neg (not_lt.mpr h2)]

theorem clampR_of_le_lo {v lo hi : ℝ} (h : lo ≤ hi) (hv : v ≤ lo) : clampR v lo hi = lo := by
  unfold clampR
  split_ifs with h1 h2
  · rfl
  · linarith
  · linarith

theorem clampR_of_ge_hi {v lo hi : ℝ} (h : lo ≤ hi) (hv : hi ≤ v) : clampR v lo hi = hi := by
  unfold clampR
  split_ifs with h1 h2
  · linarith
  · rfl
  · linarith

/-! ## Base-10 logarithm -/

theorem logb10_ten : Real.logb 10 10 = 1 := Real.logb_self_eq_one (by norm_num)

theorem logb10_pow (k : ℕ) : Real.logb 10 ((10 : ℝ) ^ k) = (k : ℝ) := by
  rw [Real.logb_pow, logb10_ten, mul_one]

theorem logb10_hundred : Real.logb 10 100 = 2 := by
  have h : (100 : ℝ) = (10 : ℝ) ^ 2 := by norm_num
  rw [h, logb10_pow]
  norm_num

theorem logb10_ge_one {x : ℝ} (hx : 10 ≤ x) : 1 ≤ Real.logb 10 x := by
  have h := Real.logb_le_logb_of_le (b := 10) (by norm_num) (by norm_num : (0:ℝ) < 10) hx
  rwa [Real.logb_self_eq_one (by norm_num)] at h

theorem logb10_lt_one {x : ℝ} (h0 : 0 < x) (h : x < 10) : Real.logb 10 x < 1 := by
  have := Real.logb_lt_logb (b := 10) (by norm_num) h0 h
  rwa [logb10_ten] at this

theorem logb10_le_of_le_pow {x : ℝ} (k : ℕ) (h0 : 0 < x) (h : x ≤ (10 : ℝ) ^ k) :
    Real.logb 10 x ≤ (k : ℝ) := by
  have := Real.logb_le_logb_of_le (b := 10) (by norm_num) h0 h
  rwa [logb10_pow] at this

theorem logb10_ge_of_pow_le {x : ℝ} (k : ℕ) (h : (10 : ℝ) ^ k ≤ x) :
    (k : ℝ) ≤ Real.logb 10 x := by
  have := Real.logb_le_logb_of_le (b := 10) (by norm_num) (by positivity) h
  rwa [logb10_pow] at this

theorem logb10_five_lower : (2 : ℝ) / 3 ≤ Real.logb 10 5 := by
  have h3 : Real.logb 10 ((5 : ℝ) ^ 3) = 3 * Real.logb 10 5 := by
    rw [Real.logb_pow]
    norm_num
  have h2 : (2 : ℝ) ≤ Real.logb 10 ((5 : ℝ) ^ 3) := by
    have := logb10_ge_of_pow_le (x := (5 : ℝ) ^ 3) 2 (by norm_num)
    exact_mod_cast this
  linarith

/-! ## Minutes left -/

theorem minLeftR_nonneg (wall d : Time) : 0 ≤ minLeftR wall d := by
  unfold minLeftR
  split_ifs with h
  · exact le_refl _
  · exact not_lt.mp h

theorem minLeftR_of_past {wall d : Int} (h : d ≤ wall) : minLeftR wall d = 0 := by
  have hu : Until wall d ≤ 0 := by
    unfold Until Sub
    split_ifs <;> omega
  have hr : ((Until wall d : Int) : ℝ) ≤ 0 := by exact_mod_cast hu
  unfold minLeftR
  split_ifs with h0
  · rfl
  · have h1 : (0 : ℝ) ≤ ((Until wall d : Int) : ℝ) / 60000000000 := not_lt.mp h0
    have h2 : ((Until wall d : Int) : ℝ) / 60000000000 ≤ 0 :=
      div_nonpos_of_nonpos_of_nonneg hr (by norm_num)
    linarith

theorem minLeftR_of_future {wall d : Int} (h0 : 0 ≤ d - wall) (h1 : d - wall < 2 ^ 63) :
    minLeftR wall d = ((d - wall : Int) : ℝ) / 60000000000 := by
  have hu : Until wall d = d - wall := by
    unfold Until Sub
    split_ifs <;> omega
  have hr : (0 : ℝ) ≤ ((d - wall : Int) : ℝ) := by exact_mod_cast h0
  unfold minLeftR
  rw [hu, if_neg (not_lt.mpr (div_nonneg hr (by norm_num)))]

/-! ## Closed forms of the sub-scores on finite values -/

theorem urgencyScore_of_none (wall : Time) (parse : String → Option Time) (t : Task) (now : Time)
    (h : t.DueAt = none) :
    urgencyScore wall parse t now = fin (clampR (0.15 * (t.Importance : ℝ)) 0 0.8) := by
  simp [urgencyScore, h, clamp_fin]

theorem urgencyScore_of_unparsed (wall : Time) (parse : String → Option Time) (t : Task)
    (now : Time) (s : String) (h : t.DueAt = some s) (hp : parse s = none) :
    urgencyScore wall parse t now = fin (clampR (0.15 * (t.Importance : ℝ)) 0 0.8) := by
  simp [urgencyScore, h, hp, clamp_fin]

theorem urgencyScore_of_due (wall : Time) (parse : String → Option Time) (t : Task) (now : Time)
    (s : String) (d : Time) (h : t.DueAt = some s) (hp : parse s = some d) :
    urgencyScore wall parse t now =
      fin (clampR (1 / Real.logb 10 (10 + minLeftR wall d) +
        0.2 * ((wrap64 (t.Importance - 1) : Int) : ℝ)) 0 1.5) := by
  have hm : (if (Minutes (Until wall d)).lt (fin 0) then fin 0 else Minutes (Until wall d)) =
      fin (minLeftR wall d) := by
    unfold Minutes minLeftR
    by_cases h0 : ((Until wall d : Int) : ℝ) / 60000000000 < 0
    · simp [h0]
    · simp [h0]
  have hpos : (0 : ℝ) < 10 + minLeftR wall d := by
    have := minLeftR_nonneg wall d
    linarith
  have hlog : (1 : ℝ) ≤ Real.logb 10 (10 + minLeftR wall d) :=
    logb10_ge_one (by have := minLeftR_nonneg wall d; linarith)
  have hne : Real.logb 10 (10 + minLeftR wall d) ≠ 0 := by linarith
  simp only [urgencyScore, h, hp, hm, F64.fin_add_fin, F64.log10_fin hpos,
    F64.fin_div_fin _ hne, F64.ofInt_eq, F64.fin_mul_fin, clamp_fin]
  norm_num

/-- Urgency of a task whose due date is not after the clock reading: the minutes left are
floored at 0 and the time pressure is `1 / log10 10 = 1`. -/
theorem urgencyScore_of_overdue (wall : Int) (parse : String → Option Time) (t : Task)
    (now : Time) (s : String) (d : Int) (h : t.DueAt = some s) (hp : parse s = some d)
    (hd : d ≤ wall) :
    urgencyScore wall parse t now =
      fin (clampR (1 + 0.2 * ((wrap64 (t.Importance - 1) : Int) : ℝ)) 0 1.5) := by
  rw [urgencyScore_of_due wall parse t now s d h hp, minLeftR_of_past hd]
  have h10 : Real.logb 10 (10 + 0) = 1 := by rw [add_zero]; exact logb10_ten
  rw [h10]
  norm_num

theorem fitScore_of_noFree (t : Task) (freeMin : Int) (h : freeMin ≤ 0) :
    fitScore t freeMin = fin 0 := by
  simp [fitScore, h]

theorem fitScore_of_fits (t : Task) (freeMin : Int) (hf : 0 < freeMin)
    (hm : 0 ≤ t.MinutesNeeded) (hle : t.MinutesNeeded ≤ freeMin) :
    fitScore t freeMin =
      fin (clampR (0.6 + 0.4 * (1 / (1 + Real.logb 10 (1 + (t.MinutesNeeded : ℝ))))) 0 1) := by
  have hm' : (0 : ℝ) ≤ (t.MinutesNeeded : ℝ) := by exact_mod_cast hm
  have hpos : (0 : ℝ) < 1 + (t.MinutesNeeded : ℝ) := by linarith
  have hlog : (0 : ℝ) ≤ Real.logb 10 (1 + (t.MinutesNeeded : ℝ)) :=
    Real.logb_nonneg (by norm_num) (by linarith)
  have hne : 1 + Real.logb 10 (1 + (t.MinutesNeeded : ℝ)) ≠ 0 := by linarith
  simp only [fitScore, not_le.mpr hf, hle, if_true, if_false, F64.ofInt_eq, F64.fin_add_fin,
    F64.log10_fin hpos, F64.fin_div_fin _ hne, F64.fin_mul_fin, clamp_fin]
  norm_num

theorem fitScore_of_over (t : Task) (freeMin : Int) (hf : 0 < freeMin)
    (hlt : freeMin < t.MinutesNeeded) :
    fitScore t freeMin = fin (clampR (0.3 * ((freeMin : ℝ) / (t.MinutesNeeded : ℝ))) 0 1) := by
  have hne : (t.MinutesNeeded : ℝ) ≠ 0 := by
    have : (0 : ℝ) < (t.MinutesNeeded : ℝ) := by exact_mod_cast lt_trans hf hlt
    linarith
  simp only [fitScore, not_le.mpr hf, not_le.mpr hlt, if_false, F64.ofInt_eq,
    F64.fin_div_fin _ hne, F64.fin_mul_fin, clamp_fin]

theorem stressMatchScore_of_high (t : Task) (stress : Int) (hs : 4 ≤ stress)
    (hm : 0 ≤ t.MinutesNeeded) :
    stressMatchScore t stress =
      fin (clampR (1 / (1 + Real.logb 10 (5 + (t.MinutesNeeded : ℝ)))) 0 1) := by
  have hm' : (0 : ℝ) ≤ (t.MinutesNeeded : ℝ) := by exact_mod_cast hm
  have hpos : (0 : ℝ) < 5 + (t.MinutesNeeded : ℝ) := by linarith
  have hlog : (0 : ℝ) ≤ Real.logb 10 (5 + (t.MinutesNeeded : ℝ)) :=
    Real.logb_nonneg (by norm_num) (by linarith)
  have hne : 1 + Real.logb 10 (5 + (t.MinutesNeeded : ℝ)) ≠ 0 := by linarith
  have hs' : stress ≥ 4 := hs
  simp only [stressMatchScore, hs', if_true, F64.ofInt_eq, F64.fin_add_fin,
    F64.log10_fin hpos, F64.fin_div_fin _ hne, clamp_fin]
  norm_num

theorem stressMatchScore_of_low (t : Task) (stress : Int) (hs : stress ≤ 2)
    (hm : 0 ≤ t.MinutesNeeded) :
    stressMatchScore t stress =
      fin (clampR (Real.logb 10 (10 + (t.MinutesNeeded : ℝ)) / 3) 0 1) := by
  have hm' : (0 : ℝ) ≤ (t.MinutesNeeded : ℝ) := by exact_mod_cast hm
  have hpos : (0 : ℝ) < 10 + (t.MinutesNeeded : ℝ) := by linarith
  have hs' : ¬ stress ≥ 4 := by omega
  have h3 : (3.0 : ℝ) ≠ 0 := by norm_num
  simp only [stressMatchScore, hs', hs, if_true, if_false, F64.ofInt_eq, F64.fin_add_fin,
    F64.log10_fin hpos, F64.fin_div_fin _ h3, clamp_fin]
  norm_num

theorem stressMatchScore_of_mid (t : Task) (stress : Int) (h1 : ¬ 4 ≤ stress)
    (h2 : ¬ stress ≤ 2) : stressMatchScore t stress = fin 0.5 := by
  have hs' : ¬ stress ≥ 4 := h1
  simp only [stressMatchScore, hs', h2, if_false]

theorem emotionScore_fin (t : Task) (stress : Int) :
    ∃ e : ℝ, emotionScore t stress = fin e ∧ -0.10 ≤ e ∧ e ≤ 0.30 ∧
      (stress < 4 → 0 ≤ e ∧ e ≤ 0.15) := by
  unfold emotionScore
  split_ifs with h1 h2 h3 h4 h5
  · exact ⟨0.30, rfl, by norm_num, by norm_num, fun h => absurd h2 (by omega)⟩
  · exact ⟨0.15, rfl, by norm_num, by norm_num, fun _ => ⟨by norm_num, by norm_num⟩⟩
  · exact ⟨0.10, rfl, by norm_num, by norm_num, fun _ => ⟨by norm_num, by norm_num⟩⟩
  · exact ⟨-0.10, rfl, by norm_num, by norm_num, fun h => absurd h5 (by omega)⟩
  · exact ⟨0.05, rfl, by norm_num, by norm_num, fun _ => ⟨by norm_num, by norm_num⟩⟩
  · exact ⟨0, rfl, by norm_num, by norm_num, fun _ => ⟨by norm_num, by norm_num⟩⟩

theorem score_eq_of_fin (wall : Time) (parse : String → Option Time) (t : Task) (now : Time)
    (freeMin stress : Int) {u f e m : ℝ} (hu : urgencyScore wall parse t now = fin u)
    (hf : fitScore t freeMin = fin f) (he : emotionScore t stress = fin e)
    (hm : stressMatchScore t stress = fin m) :
    score wall parse t now freeMin stress = fin (0.50 * u + 0.25 * f + 0.15 * e + 0.10 * m) := by
  simp [score, hu, hf, he, hm]

theorem score_nine_neutral_of (wall : Time) (parse : String → Option Time) (t : Task)
    (now : Time) (hE : t.Emotion = NEUTRAL) (hM : t.MinutesNeeded = 9) {u : ℝ}
    (hu : urgencyScore wall parse t now = fin u) :
    score wall parse t now 30 3 = fin (0.50 * u + 0.265) := by
  have hf := fitScore_of_fits t 30 (by norm_num) (by omega) (by omega)
  have he : emotionScore t 3 = fin 0.10 := by
    have h1 : ¬ NEUTRAL = PLEASANT := by decide
    simp [emotionScore, hE, h1]
  have hm := stressMatchScore_of_mid t 3 (by norm_num) (by norm_num)
  rw [score_eq_of_fin wall parse _ now 30 3 hu hf he hm, hM]
  have hl : Real.logb 10 (1 + ((9 : Int) : ℝ)) = 1 := by
    have : (1 : ℝ) + ((9 : Int) : ℝ) = 10 := by norm_num
    rw [this]
    exact logb10_ten
  have hc2 : clampR (0.6 + 0.4 * (1 / (1 + Real.logb 10 (1 + ((9 : Int) : ℝ))))) 0 1 = 0.8 := by
    rw [hl]
    have : (0.6 : ℝ) + 0.4 * (1 / (1 + 1)) = 0.8 := by norm_num
    rw [this]
    exact clampR_of_mem (by norm_num) (by norm_num)
  rw [hc2]
  congr 1
  ring

/-! ## Bounds of the sub-scores for `minutesNeeded ≥ 0` -/

theorem urgencyScore_fin (wall : Time) (parse : String → Option Time) (t : Task) (now : Time) :
    ∃ u : ℝ, urgencyScore wall parse t now = fin u ∧ 0 ≤ u ∧ u ≤ 1.5 := by
  cases hd : t.DueAt with
  | none =>
    refine ⟨_, urgencyScore_of_none wall parse t now hd, ?_, ?_⟩
    · exact (clampR_bounds _ (by norm_num)).1
    · exact le_trans (clampR_bounds _ (by norm_num)).2 (by norm_num)
  | some s =>
    cases hp : parse s with
    | none =>
      refine ⟨_, urgencyScore_of_unparsed wall parse t now s hd hp, ?_, ?_⟩
      · exact (clampR_bounds _ (by norm_num)).1
      · exact le_trans (clampR_bounds _ (by norm_num)).2 (by norm_num)
    | some d =>
      exact ⟨_, urgencyScore_of_due wall parse t now s d hd hp,
        (clampR_bounds _ (by norm_num)).1, (clampR_bounds _ (by norm_num)).2⟩

theorem fitScore_fin (t : Task) (freeMin : Int) (hm : 0 ≤ t.MinutesNeeded) :
    ∃ f : ℝ, fitScore t freeMin = fin f ∧ 0 ≤ f ∧ f ≤ 1 := by
  by_cases hf : freeMin ≤ 0
  · exact ⟨0, fitScore_of_noFree t freeMin hf, le_refl _, by norm_num⟩
  · by_cases hle : t.MinutesNeeded ≤ freeMin
    · exact ⟨_, fitScore_of_fits t freeMin (not_le.mp hf) hm hle,
        (clampR_bounds _ (by norm_num)).1, (clampR_bounds _ (by norm_num)).2⟩
    · exact ⟨_, fitScore_of_over t freeMin (not_le.mp hf) (not_le.mp hle),
        (clampR_bounds _ (by norm_num)).1, (clampR_bounds _ (by norm_num)).2⟩

theorem stressMatchScore_fin (t : Task) (stress : Int) (hm : 0 ≤ t.MinutesNeeded) :
    ∃ m : ℝ, stressMatchScore t stress = fin m ∧ 0 ≤ m ∧ m ≤ 1 := by
  by_cases h4 : 4 ≤ stress
  · exact ⟨_, stressMatchScore_of_high t stress h4 hm,
      (clampR_bounds _ (by norm_num)).1, (clampR_bounds _ (by norm_num)).2⟩
  · by_cases h2 : stress ≤ 2
    · exact ⟨_, stressMatchScore_of_low t stress h2 hm,
        (clampR_bounds _ (by norm_num)).1, (clampR_bounds _ (by norm_num)).2⟩
    · exact ⟨0.5, stressMatchScore_of_mid t stress h4 h2, by norm_num, by norm_num⟩

/-- Under high stress the stress-match score of a task with `0 ≤ minutesNeeded < 2^63` is at
least `1/20`, since `5 + minutesNeeded < 10^19`. -/
theorem stressMatchScore_high_lower (t : Task) (stress : Int) (hs : 4 ≤ stress)
    (hm0 : 0 ≤ t.MinutesNeeded) (hm1 : t.MinutesNeeded < 2 ^ 63) :
    ∃ m : ℝ, stressMatchScore t stress = fin m ∧ 0.05 ≤ m ∧ m ≤ 1 := by
  refine ⟨_, stressMatchScore_of_high t stress hs hm0, ?_, (clampR_bounds _ (by norm_num)).2⟩
  have hm0' : (0 : ℝ) ≤ (t.MinutesNeeded : ℝ) := by exact_mod_cast hm0
  have hm1' : (t.MinutesNeeded : ℝ) < 2 ^ 63 := by exact_mod_cast hm1
  have hl0 : (0 : ℝ) ≤ Real.logb 10 (5 + (t.MinutesNeeded : ℝ)) :=
    Real.logb_nonneg (by norm_num) (by linarith)
  have hl1 : Real.logb 10 (5 + (t.MinutesNeeded : ℝ)) ≤ 19 := by
    have := logb10_le_of_le_pow (x := 5 + (t.MinutesNeeded : ℝ)) 19 (by linarith)
      (by norm_num at hm1' ⊢; linarith)
    exact_mod_cast this
  have hq : (1 : ℝ) / 20 ≤ 1 / (1 + Real.logb 10 (5 + (t.MinutesNeeded : ℝ))) :=
    one_div_le_one_div_of_le (by linarith) (by linarith)
  have h5 : clampR 0.05 0 1 = 0.05 := clampR_of_mem (by norm_num) (by norm_num)
  calc (0.05 : ℝ) = clampR 0.05 0 1 := h5.symm
    _ ≤ _ := clampR_mono 0 1 (by norm_num) (by norm_num at hq ⊢; linarith)

/-- The high-stress value of the stress-match score of a task with `minutesNeeded ≥ 0` is at
most 0.6, since `log10 5 ≥ 2/3`. -/
theorem stressMatchScore_high_upper (t : Task) (hm0 : 0 ≤ t.MinutesNeeded) :
    clampR (1 / (1 + Real.logb 10 (5 + (t.MinutesNeeded : ℝ)))) 0 1 ≤ 0.6 := by
  have hm0' : (0 : ℝ) ≤ (t.MinutesNeeded : ℝ) := by exact_mod_cast hm0
  have hl : Real.logb 10 5 ≤ Real.logb 10 (5 + (t.MinutesNeeded : ℝ)) :=
    Real.logb_le_logb_of_le (by norm_num) (by norm_num) (by linarith)
  have h5 := logb10_five_lower
  have hq : 1 / (1 + Real.logb 10 (5 + (t.MinutesNeeded : ℝ))) ≤ 1 / (5 / 3) :=
    one_div_le_one_div_of_le (by norm_num) (by linarith)
  have h6 : clampR 0.6 0 1 = 0.6 := clampR_of_mem (by norm_num) (by norm_num)
  calc clampR (1 / (1 + Real.logb 10 (5 + (t.MinutesNeeded : ℝ)))) 0 1
      ≤ clampR 0.6 0 1 := clampR_mono 0 1 (by norm_num) (by norm_num at hq ⊢; linarith)
    _ = 0.6 := h6

/-- Under low stress, fit and stress-match of a task with `minutesNeeded ≥ 0` cannot both be
large: `0.25 * fit + 0.10 * stressMatch ≤ 0.3325`. -/
theorem fit_stress_low_tradeoff (t : Task) (freeMin stress : Int) (hs : stress ≤ 2)
    (hm0 : 0 ≤ t.MinutesNeeded) :
    ∃ f m : ℝ, fitScore t freeMin = fin f ∧ stressMatchScore t stress = fin m ∧
      0 ≤ f ∧ 0 ≤ m ∧ 0.25 * f + 0.10 * m ≤ 0.3325 := by
  obtain ⟨f, hf, hf0, hf1⟩ := fitScore_fin t freeMin hm0
  have hm := stressMatchScore_of_low t stress hs hm0
  have hm0' : (0 : ℝ) ≤ (t.MinutesNeeded : ℝ) := by exact_mod_cast hm0
  have hb := @clampR_bounds (Real.logb 10 (10 + (t.MinutesNeeded : ℝ)) / 3) 0 1 (by norm_num)
  refine ⟨f, _, hf, hm, hf0, hb.1, ?_⟩
  by_cases h90 : t.MinutesNeeded ≤ 90
  · -- a short task: the stress-match score is at most 2/3
    have h90' : (t.MinutesNeeded : ℝ) ≤ 90 := by exact_mod_cast h90
    have hl : Real.logb 10 (10 + (t.MinutesNeeded : ℝ)) ≤ 2 := by
      have := logb10_le_of_le_pow (x := 10 + (t.MinutesNeeded : ℝ)) 2 (by linarith)
        (by norm_num; linarith)
      exact_mod_cast this
    have hc : clampR (Real.logb 10 (10 + (t.MinutesNeeded : ℝ)) / 3) 0 1 ≤ clampR (2 / 3) 0 1 :=
      clampR_mono 0 1 (by norm_num) (by linarith)
    have h23 : clampR ((2 : ℝ) / 3) 0 1 = 2 / 3 := clampR_of_mem (by norm_num) (by norm_num)
    rw [h23] at hc
    linarith
  · -- a long task: the fit score is at most 0.8
    have h90' : (90 : ℝ) < (t.MinutesNeeded : ℝ) := by exact_mod_cast not_le.mp h90
    have hf8 : f ≤ 0.8 := by
      by_cases hfree : freeMin ≤ 0
      · rw [fitScore_of_noFree t freeMin hfree] at hf
        have : f = 0 := by injection hf with h; exact h.symm
        rw [this]
        norm_num
      · by_cases hle : t.MinutesNeeded ≤ freeMin
        · rw [fitScore_of_fits t freeMin (not_le.mp hfree) hm0 hle] at hf
          have hfe : f = clampR (0.6 + 0.4 * (1 / (1 + Real.logb 10
              (1 + (t.MinutesNeeded : ℝ))))) 0 1 := by injection hf with h; exact h.symm
          have hl1 : (1 : ℝ) ≤ Real.logb 10 (1 + (t.MinutesNeeded : ℝ)) :=
            logb10_ge_one (by linarith)
          have hq : 1 / (1 + Real.logb 10 (1 + (t.MinutesNeeded : ℝ))) ≤ 1 / 2 :=
            one_div_le_one_div_of_le (by norm_num) (by linarith)
          have h8 : clampR 0.8 0 1 = 0.8 := clampR_of_mem (by norm_num) (by norm_num)
          rw [hfe]
          calc clampR (0.6 + 0.4 * (1 / (1 + Real.logb 10 (1 + (t.MinutesNeeded : ℝ))))) 0 1
              ≤ clampR 0.8 0 1 := clampR_mono 0 1 (by norm_num) (by linarith)
            _ = 0.8 := h8
        · rw [fitScore_of_over t freeMin (not_le.mp hfree) (not_le.mp hle)] at hf
          have hfe : f = clampR (0.3 * ((freeMin : ℝ) / (t.MinutesNeeded : ℝ))) 0 1 := by
            injection hf with h; exact h.symm
          have hlt : (freeMin : ℝ) ≤ (t.MinutesNeeded : ℝ) := by
            exact_mod_cast le_of_lt (not_le.mp hle)
          have hr : (freeMin : ℝ) / (t.MinutesNeeded : ℝ) ≤ 1 :=
            div_le_one_of_le₀ hlt (by linarith)
          have h3 : clampR 0.3 0 1 = 0.3 := clampR_of_mem (by norm_num) (by norm_num)
          rw [hfe]
          calc clampR (0.3 * ((freeMin : ℝ) / (t.MinutesNeeded : ℝ))) 0 1
              ≤ clampR 0.3 0 1 := clampR_mono 0 1 (by norm_num) (by linarith)
            _ = 0.3 := h3
            _ ≤ 0.8 := by norm_num
    linarith [hb.2]

/-! ## NaN: `math.Log10` of a negative argument -/

@[simp] theorem F64.add_nan (x : F64) : x + nan = nan := by
  cases x <;> rfl

@[simp] theorem F64.nan_add (x : F64) : nan + x = nan := by
  cases x <;> rfl

@[simp] theorem F64.mul_nan (x : F64) : x * nan = nan := by
  cases x <;> rfl

@[simp] theorem F64.nan_mul (x : F64) : nan * x = nan := by
  cases x <;> rfl

@[simp] theorem F64.div_nan (x : F64) : x / nan = nan := by
  cases x <;> rfl

@[simp] theorem F64.lt_nan (x : F64) : x.lt nan = false := by
  cases x <;> rfl

@[simp] theorem F64.nan_lt (x : F64) : nan.lt x = false := by
  cases x <;> rfl

@[simp] theorem F64.gt_nan (x : F64) : x.gt nan = false := F64.nan_lt x

@[simp] theorem F64.nan_gt (x : F64) : nan.gt x = false := F64.lt_nan x

@[simp] theorem F64.ne_nan (x : F64) : x.ne nan = true := by
  cases x <;> rfl

@[simp] theorem F64.nan_ne (x : F64) : nan.ne x = true := by
  cases x <;> rfl

@[simp] theorem F64.ge_nan (x : F64) : x.ge nan = false := by
  simp [F64.ge]

@[simp] theorem F64.nan_ge (x : F64) : nan.ge x = false := by
  simp [F64.ge]

@[simp] theorem clamp_nan (lo hi : F64) : clamp nan lo hi = nan := by
  simp [clamp]

theorem F64.log10_fin_neg {x : ℝ} (hx : x < 0) : log10 (fin x) = nan := by
  simp [F64.log10, hx]

/-- With free time, a task of `minutesNeeded` at most -2 gets the fit score NaN. -/
theorem fitScore_of_negative (t : Task) (freeMin : Int) (hf : 0 < freeMin)
    (hm : t.MinutesNeeded ≤ -2) : fitScore t freeMin = nan := by
  have hle : t.MinutesNeeded ≤ freeMin := by omega
  have hneg : (1 : ℝ) + (t.MinutesNeeded : ℝ) < 0 := by
    have : (t.MinutesNeeded : ℝ) ≤ -2 := by exact_mod_cast hm
    linarith
  simp [fitScore, not_le.mpr hf, hle, F64.log10_fin_neg hneg]

/-- Under high stress, a task of `minutesNeeded` at most -6 gets the stress-match score NaN. -/
theorem stressMatchScore_of_negative (t : Task) (stress : Int) (hs : 4 ≤ stress)
    (hm : t.MinutesNeeded ≤ -6) : stressMatchScore t stress = nan := by
  have hs' : stress ≥ 4 := hs
  have hneg : (5 : ℝ) + (t.MinutesNeeded : ℝ) < 0 := by
    have : (t.MinutesNeeded : ℝ) ≤ -6 := by exact_mod_cast hm
    linarith
  simp [stressMatchScore, hs', F64.log10_fin_neg hneg]

theorem score_of_fit_nan (wall : Time) (parse : String → Option Time) (t : Task) (now : Time)
    (freeMin stress : Int) (h : fitScore t freeMin = nan) :
    score wall parse t now freeMin stress = nan := by
  simp [score, h]

theorem less_of_nan_left (wall : Time) (parse : String → Option Time) (now : Time)
    (freeMin stress : Int) (a b : Task) (h : score wall parse a now freeMin stress = nan) :
    less wall parse now freeMin stress a b = false := by
  simp [less, h]

theorem less_of_nan_right (wall : Time) (parse : String → Option Time) (now : Time)
    (freeMin stress : Int) (a b : Task) (h : score wall parse b now freeMin stress = nan) :
    less wall parse now freeMin stress a b = false := by
  simp [less, h]

/-! ## Parts of the listing and selection claims that hold for every store -/

theorem sinkLeft_perm {α : Type} (less : α → α → Bool) (x : α) (l : List α) :
    (sinkLeft less x l).Perm (x :: l) := by
  induction l with
  | nil => exact List.Perm.refl _
  | cons p rest ih =>
    unfold sinkLeft
    split_ifs with h
    · exact (List.Perm.cons p ih).trans (List.Perm.swap x p rest)
    · exact List.Perm.refl _

theorem foldl_sinkLeft_perm {α : Type} (less : α → α → Bool) (arr sorted : List α) :
    (arr.foldl (fun sorted x => sinkLeft less x sorted) sorted).Perm (arr.reverse ++ sorted) := by
  induction arr generalizing sorted with
  | nil => exact List.Perm.refl _
  | cons a rest ih =>
    rw [List.foldl_cons, List.reverse_cons, List.append_assoc]
    exact (ih (sinkLeft less a sorted)).trans
      (List.Perm.append_left _ (sinkLeft_perm less a sorted))

/-- The result of `sortSlice` is a permutation of its input, whatever the comparator. -/
theorem sortSlice_perm {α : Type} (less : α → α → Bool) (arr : List α) :
    (sortSlice less arr).Perm arr := by
  unfold sortSlice
  have h := foldl_sinkLeft_perm less arr []
  rw [List.append_nil] at h
  exact (List.reverse_perm _).trans (h.trans (List.reverse_perm arr))

/-- The listing is a permutation of the tasks ranged over, for every store and context. -/
theorem listTasks_perm (wall : Time) (parse : String → Option Time) (tasks : List Task)
    (now : Time) (freeMin stress : Int) :
    (listTasks wall parse tasks now freeMin stress).Perm tasks :=
  sortSlice_perm _ tasks

/-- On the empty store the `/next` handler answers "none". -/
theorem nextTask_nil (wall : Time) (parse : String → Option Time) (now : Time)
    (freeMin stress : Int) : nextTask wall parse [] now freeMin stress = none := rfl

theorem foldl_nextStep_mem (wall : Time) (parse : String → Option Time) (now : Time)
    (freeMin stress : Int) (tasks : List Task) (st : Option Task × F64) (t : Task)
    (h : (tasks.foldl (nextStep wall parse now freeMin stress) st).1 = some t) :
    st.1 = some t ∨ t ∈ tasks := by
  induction tasks generalizing st with
  | nil => exact Or.inl h
  | cons a rest ih =>
    rw [List.foldl_cons] at h
    rcases ih _ h with h1 | h1
    · by_cases hgt : (score wall parse a now freeMin stress).gt st.2 = true
      · right
        have : a = t := by
          simpa [nextStep, hgt] using h1
        rw [this]
        exact List.mem_cons_self _ _
      · left
        simpa [nextStep, hgt] using h1
    · exact Or.inr (List.mem_cons_of_mem _ h1)

/-- A task returned by the `/next` handler is one of the stored tasks. -/
theorem nextTask_mem (wall : Time) (parse : String → Option Time) (tasks : List Task)
    (now : Time) (freeMin stress : Int) (t : Task)
    (h : nextTask wall parse tasks now freeMin stress = some t) : t ∈ tasks := by
  rcases foldl_nextStep_mem wall parse now freeMin stress tasks _ t h with h1 | h1
  · exact absurd h1 (by simp)
  · exact h1

/-! ## Sorting two elements -/

theorem sortSlice_pair_keep {α : Type} (less : α → α → Bool) (a b : α) (h : less b a = false) :
    sortSlice less [a, b] = [a, b] := by
  simp [sortSlice, sinkLeft, h]

theorem sortSlice_pair_swap {α : Type} (less : α → α → Bool) (a b : α) (h : less b a = true) :
    sortSlice less [a, b] = [b, a] := by
  simp [sortSlice, sinkLeft, h]

/-! ## Scores of the sample tasks -/

theorem parseSample_2020_01_01 : parseSample "2020-01-01T00:00:00Z" = some year2020 := by
  decide

theorem parseSample_2020_01_02 :
    parseSample "2020-01-02T00:00:00Z" = some 1577923200000000000 := by
  decide

theorem parseSample_2200_01_01 :
    parseSample "2200-01-01T00:00:00Z" = some 7258118400000000000 := by
  decide

theorem score_taskNeg (wall : Time) (parse : String → Option Time) (now : Time) (stress : Int) :
    score wall parse taskNeg now 30 stress = nan :=
  score_of_fit_nan _ _ _ _ _ _ (fitScore_of_negative taskNeg 30 (by norm_num) (by decide))

theorem score_taskLo (wall : Time) (parse : String → Option Time) (now : Time) :
    score wall parse taskLo now 30 3 = fin 0.34 := by
  have hu : urgencyScore wall parse taskLo now = fin 0.15 := by
    rw [urgencyScore_of_none wall parse taskLo now rfl]
    have hv : (0.15 : ℝ) * ((taskLo.Importance : Int) : ℝ) = 0.15 := by
      simp [taskLo]
    rw [hv, clampR_of_mem (by norm_num) (by norm_num)]
  rw [score_nine_neutral_of wall parse taskLo now rfl rfl hu]
  congr 1
  norm_num

theorem score_taskHi (wall : Time) (parse : String → Option Time) (now : Time) :
    score wall parse taskHi now 30 3 = fin 0.64 := by
  have hu : urgencyScore wall parse taskHi now = fin 0.75 := by
    rw [urgencyScore_of_none wall parse taskHi now rfl]
    have hv : (0.15 : ℝ) * ((taskHi.Importance : Int) : ℝ) = 0.75 := by
      simp [taskHi]
      norm_num
    rw [hv, clampR_of_mem (by norm_num) (by norm_num)]
  rw [score_nine_neutral_of wall parse taskHi now rfl rfl hu]
  congr 1
  norm_num

theorem less_taskHi_taskLo (wall : Time) (parse : String → Option Time) (now : Time) :
    less wall parse now 30 3 taskHi taskLo = true := by
  simp only [less, score_taskLo, score_taskHi, F64.ne_fin_fin, F64.gt_fin_fin]
  norm_num

theorem urgency_taskDueFirst_overdue (wall : Int) (now : Time) (hw : year2020 ≤ wall) :
    urgencyScore wall parseSample taskDueFirst now = fin 1.4 := by
  rw [urgencyScore_of_overdue wall parseSample taskDueFirst now _ year2020 rfl
    parseSample_2020_01_01 hw]
  have hw2 : wrap64 (taskDueFirst.Importance - 1) = 2 := by decide
  rw [hw2]
  have hv : (1 : ℝ) + 0.2 * ((2 : Int) : ℝ) = 1.4 := by norm_num
  rw [hv, clampR_of_mem (by norm_num) (by norm_num)]

theorem urgency_taskDueSecond_overdue (wall : Int) (now : Time)
    (hw : 1577923200000000000 ≤ wall) :
    urgencyScore wall parseSample taskDueSecond now = fin 1.4 := by
  rw [urgencyScore_of_overdue wall parseSample taskDueSecond now _ 1577923200000000000 rfl
    parseSample_2020_01_02 hw]
  have hw2 : wrap64 (taskDueSecond.Importance - 1) = 2 := by decide
  rw [hw2]
  have hv : (1 : ℝ) + 0.2 * ((2 : Int) : ℝ) = 1.4 := by norm_num
  rw [hv, clampR_of_mem (by norm_num) (by norm_num)]

theorem urgency_taskFar : urgencyScore year2026 parseSample taskFar year2026 = fin 0 := by
  rw [urgencyScore_of_due year2026 parseSample taskFar year2026 _ 7258118400000000000 rfl
    parseSample_2200_01_01]
  have hm : minLeftR year2026 7258118400000000000 = 91514880 := by
    rw [minLeftR_of_future (by decide) (by decide)]
    have : (7258118400000000000 : Int) - year2026 = 5490892800000000000 := by decide
    rw [this]
    norm_num
  have hw : wrap64 (taskFar.Importance - 1) = -1 := by decide
  have hl : (5 : ℝ) ≤ Real.logb 10 (10 + 91514880) := by
    have := logb10_ge_of_pow_le (x := 10 + 91514880) 5 (by norm_num)
    exact_mod_cast this
  have hq : 1 / Real.logb 10 (10 + 91514880) ≤ 1 / 5 :=
    one_div_le_one_div_of_le (by norm_num) hl
  rw [hm, hw]
  congr 1
  apply clampR_of_le_lo (by norm_num)
  push_cast
  linarith

theorem urgency_taskOpen : urgencyScore year2026 parseSample taskOpen year2026 = fin 0 := by
  rw [urgencyScore_of_none year2026 parseSample taskOpen year2026 rfl]
  congr 1
  apply clampR_of_le_lo (by norm_num)
  simp [taskOpen]

theorem score_taskUrgent_lower :
    ∃ x : ℝ, score year2026 parseSample taskUrgent year2026 30 5 = fin x ∧ 1.045 ≤ x := by
  have hu : urgencyScore year2026 parseSample taskUrgent year2026 = fin 1.5 := by
    rw [urgencyScore_of_overdue year2026 parseSample taskUrgent year2026 _ year2020 rfl
      parseSample_2020_01_01 (by decide)]
    have hw : wrap64 (taskUrgent.Importance - 1) = 4 := by decide
    rw [hw, clampR_of_ge_hi (by norm_num) (by norm_num)]
  have hf := fitScore_of_fits taskUrgent 30 (by norm_num) (by decide) (by decide)
  have he : emotionScore taskUrgent 5 = fin 0.30 := by
    simp [emotionScore, taskUrgent]
  have hm : stressMatchScore taskUrgent 5 = fin 0.5 := by
    rw [stressMatchScore_of_high taskUrgent 5 (by norm_num) (by decide)]
    have hl : Real.logb 10 (5 + ((taskUrgent.MinutesNeeded : Int) : ℝ)) = 1 := by
      have : (5 : ℝ) + ((taskUrgent.MinutesNeeded : Int) : ℝ) = 10 := by
        simp [taskUrgent]
        norm_num
      rw [this, logb10_ten]
    rw [hl]
    have hv : (1 : ℝ) / (1 + 1) = 0.5 := by norm_num
    rw [hv, clampR_of_mem (by norm_num) (by norm_num)]
  refine ⟨_, score_eq_of_fin year2026 parseSample taskUrgent year2026 30 5 hu hf he hm, ?_⟩
  have hl6 : Real.logb 10 (1 + ((taskUrgent.MinutesNeeded : Int) : ℝ)) < 1 :=
    logb10_lt_one (by simp [taskUrgent]; norm_num) (by simp [taskUrgent]; norm_num)
  have hl6' : (0 : ℝ) ≤ Real.logb 10 (1 + ((taskUrgent.MinutesNeeded : Int) : ℝ)) :=
    Real.logb_nonneg (by norm_num) (by simp [taskUrgent])
  have hq : (1 : ℝ) / 2 ≤ 1 / (1 + Real.logb 10 (1 + ((taskUrgent.MinutesNeeded : Int) : ℝ))) :=
    one_div_le_one_div_of_le (by linarith) (by linarith)
  have h8 : clampR 0.8 0 1 = 0.8 := clampR_of_mem (by norm_num) (by norm_num)
  have hfl : (0.8 : ℝ) ≤ clampR (0.6 + 0.4 * (1 / (1 + Real.logb 10
      (1 + ((taskUrgent.MinutesNeeded : Int) : ℝ))))) 0 1 := by
    calc (0.8 : ℝ) = clampR 0.8 0 1 := h8.symm
      _ ≤ _ := clampR_mono 0 1 (by norm_num) (by linarith)
  linarith

/-! ## C1: the ranking scenario -/

/-- C1. In the ranking scenario (free minutes 30, stress 5), whatever the evaluation instant and
the clock reading, task A (pleasant, 10 minutes, importance 5, due five minutes after the
evaluation instant) has a strictly greater combined score than task B (aversive, 120 minutes,
importance 1, no due date), each of its urgency, fit and emotion sub-scores is strictly greater,
and the listing of the two tasks puts A first for both iteration orders of the store. -/
theorem C1_scenario_ranking (wall : Time) (parse : String → Option Time) (now : Time)
    (idA titleA idB titleB due : String) (hdue : parse due = some (now + fiveMinutes)) :
    (score wall parse (scenarioA idA titleA due) now 30 5).gt
        (score wall parse (scenarioB idB titleB) now 30 5) = true ∧
      (urgencyScore wall parse (scenarioA idA titleA due) now).gt
        (urgencyScore wall parse (scenarioB idB titleB) now) = true ∧
      (fitScore (scenarioA idA titleA due) 30).gt (fitScore (scenarioB idB titleB) 30) = true ∧
      (emotionScore (scenarioA idA titleA due) 5).gt
        (emotionScore (scenarioB idB titleB) 5) = true ∧
      listTasks wall parse [scenarioA idA titleA due, scenarioB idB titleB] now 30 5 =
        [scenarioA idA titleA due, scenarioB idB titleB] ∧
      listTasks wall parse [scenarioB idB titleB, scenarioA idA titleA due] now 30 5 =
        [scenarioA idA titleA due, scenarioB idB titleB] := by
  -- closed forms of the eight sub-scores
  have huA := urgencyScore_of_due wall parse (scenarioA idA titleA due) now due
    (now + fiveMinutes) rfl hdue
  have huB := urgencyScore_of_none wall parse (scenarioB idB titleB) now rfl
  have hfA := fitScore_of_fits (scenarioA idA titleA due) 30 (by norm_num)
    (by simp [scenarioA]) (by simp [scenarioA])
  have hfB := fitScore_of_over (scenarioB idB titleB) 30 (by norm_num) (by simp [scenarioB])
  have heA : emotionScore (scenarioA idA titleA due) 5 = fin 0.30 := by
    simp [emotionScore, scenarioA]
  have heB : emotionScore (scenarioB idB titleB) 5 = fin (-0.10) := by
    have h1 : ¬ AVERSIVE = PLEASANT := by decide
    have h2 : ¬ AVERSIVE = NEUTRAL := by decide
    simp [emotionScore, scenarioB, h1, h2]
  obtain ⟨mA, hmA, hmA0, -⟩ := stressMatchScore_fin (scenarioA idA titleA due) 5
    (by simp [scenarioA])
  obtain ⟨mB, hmB, -, hmB1⟩ := stressMatchScore_fin (scenarioB idB titleB) 5
    (by simp [scenarioB])
  -- numeric facts
  have hw : wrap64 ((scenarioA idA titleA due).Importance - 1) = 4 := by
    simp [scenarioA, wrap64]
  have hml := minLeftR_nonneg wall (now + fiveMinutes)
  have hlog : (1 : ℝ) ≤ Real.logb 10 (10 + minLeftR wall (now + fiveMinutes)) :=
    logb10_ge_one (by linarith)
  have htp : (0 : ℝ) ≤ 1 / Real.logb 10 (10 + minLeftR wall (now + fiveMinutes)) :=
    div_nonneg (by norm_num) (by linarith)
  have huA_lb : (0.8 : ℝ) ≤ clampR (1 / Real.logb 10 (10 + minLeftR wall (now + fiveMinutes)) +
      0.2 * ((wrap64 ((scenarioA idA titleA due).Importance - 1) : Int) : ℝ)) 0 1.5 := by
    rw [hw]
    have h8 : clampR 0.8 0 1.5 = 0.8 := clampR_of_mem (by norm_num) (by norm_num)
    calc (0.8 : ℝ) = clampR 0.8 0 1.5 := h8.symm
      _ ≤ _ := clampR_mono 0 1.5 (by norm_num) (by push_cast; linarith)
  have huB_eq : clampR (0.15 * (((scenarioB idB titleB).Importance : Int) : ℝ)) 0 0.8 = 0.15 := by
    have : (((scenarioB idB titleB).Importance : Int) : ℝ) = 1 := by simp [scenarioB]
    rw [this, mul_one]
    exact clampR_of_mem (by norm_num) (by norm_num)
  have hlog11 : (0 : ℝ) ≤ Real.logb 10 (1 + (((scenarioA idA titleA due).MinutesNeeded : Int) : ℝ)) :=
    Real.logb_nonneg (by norm_num) (by simp [scenarioA])
  have hfA_lb : (0.6 : ℝ) ≤ clampR (0.6 + 0.4 * (1 / (1 + Real.logb 10
      (1 + (((scenarioA idA titleA due).MinutesNeeded : Int) : ℝ))))) 0 1 := by
    have h6 : clampR 0.6 0 1 = 0.6 := clampR_of_mem (by norm_num) (by norm_num)
    have hq : (0 : ℝ) ≤ 1 / (1 + Real.logb 10
        (1 + (((scenarioA idA titleA due).MinutesNeeded : Int) : ℝ))) :=
      div_nonneg (by norm_num) (by linarith)
    calc (0.6 : ℝ) = clampR 0.6 0 1 := h6.symm
      _ ≤ _ := clampR_mono 0 1 (by norm_num) (by linarith)
  have hfB_eq : clampR (0.3 * (((30 : Int) : ℝ) /
      (((scenarioB idB titleB).MinutesNeeded : Int) : ℝ))) 0 1 = 0.075 := by
    have : (((scenarioB idB titleB).MinutesNeeded : Int) : ℝ) = 120 := by simp [scenarioB]
    rw [this]
    have hv : (0.3 : ℝ) * (((30 : Int) : ℝ) / 120) = 0.075 := by norm_num
    rw [hv]
    exact clampR_of_mem (by norm_num) (by norm_num)
  have hsA := score_eq_of_fin wall parse (scenarioA idA titleA due) now 30 5 huA hfA heA hmA
  have hsB := score_eq_of_fin wall parse (scenarioB idB titleB) now 30 5 huB hfB heB hmB
  have hgt : (score wall parse (scenarioA idA titleA due) now 30 5).gt
      (score wall parse (scenarioB idB titleB) now 30 5) = true := by
    rw [hsA, hsB, huB_eq, hfB_eq]
    simp only [F64.gt_fin_fin, decide_eq_true_eq]
    linarith
  have hBA : less wall parse now 30 5 (scenarioB idB titleB) (scenarioA idA titleA due)
      = false := by
    have hne : (score wall parse (scenarioB idB titleB) now 30 5).ne
        (score wall parse (scenarioA idA titleA due) now 30 5) = true := by
      rw [hsA, hsB, huB_eq, hfB_eq]
      simp only [F64.ne_fin_fin, decide_eq_true_eq]
      intro h
      linarith
    have hng : (score wall parse (scenarioB idB titleB) now 30 5).gt
        (score wall parse (scenarioA idA titleA due) now 30 5) = false := by
      rw [hsA, hsB, huB_eq, hfB_eq]
      simp only [F64.gt_fin_fin, decide_eq_false_iff_not, not_lt]
      linarith
    simp only [less, hne, if_true, hng]
  have hAB : less wall parse now 30 5 (scenarioA idA titleA due) (scenarioB idB titleB)
      = true := by
    have hne : (score wall parse (scenarioA idA titleA due) now 30 5).ne
        (score wall parse (scenarioB idB titleB) now 30 5) = true := by
      rw [hsA, hsB, huB_eq, hfB_eq]
      simp only [F64.ne_fin_fin, decide_eq_true_eq]
      intro h
      linarith
    simp only [less, hne, if_true, hgt]
  refine ⟨hgt, ?_, ?_, ?_, ?_, ?_⟩
  · rw [huA, huB, huB_eq]
    simp only [F64.gt_fin_fin, decide_eq_true_eq]
    linarith
  · rw [hfA, hfB, hfB_eq]
    simp only [F64.gt_fin_fin, decide_eq_true_eq]
    linarith
  · rw [heA, heB]
    simp only [F64.gt_fin_fin, decide_eq_true_eq]
    norm_num
  · exact sortSlice_pair_keep _ _ _ hBA
  · exact sortSlice_pair_swap _ _ _ hAB

/-- Witness of C1: evaluation instant 0, clock reading 0, a parser that reads every string as
the instant five minutes after 0. -/
theorem C1_scenario_ranking_witness :
    (score 0 (fun _ => some fiveMinutes) (scenarioA "a" "A" "due") 0 30 5).gt
        (score 0 (fun _ => some fiveMinutes) (scenarioB "b" "B") 0 30 5) = true ∧
      listTasks 0 (fun _ => some fiveMinutes) [scenarioB "b" "B", scenarioA "a" "A" "due"] 0 30 5 =
        [scenarioA "a" "A" "due", scenarioB "b" "B"] :=
  have h := C1_scenario_ranking 0 (fun _ => some fiveMinutes) 0 "a" "A" "b" "B" "due" rfl
  ⟨h.1, h.2.2.2.2.2⟩

/-! ## C2: the listing as a sorted permutation -/

/-- C2. Failing input of the sorted-listing claim. The store holds `taskLo` (importance 1),
`taskNeg` (minutesNeeded -10, score NaN) and `taskHi` (importance 5), ranged over in this order,
default context. The listing is returned unchanged: `taskLo` is placed before `taskHi` although
its score is strictly smaller. -/
theorem C2_listing_unsorted_at_nan :
    listTasks year2026 parseSample [taskLo, taskNeg, taskHi] year2026 30 3 =
        [taskLo, taskNeg, taskHi] ∧
      (score year2026 parseSample taskLo year2026 30 3).lt
        (score year2026 parseSample taskHi year2026 30 3) = true ∧
      (score year2026 parseSample taskLo year2026 30 3).ge
        (score year2026 parseSample taskHi year2026 30 3) = false := by
  have h1 : less year2026 parseSample year2026 30 3 taskNeg taskLo = false :=
    less_of_nan_left _ _ _ _ _ _ _ (score_taskNeg _ _ _ _)
  have h2 : less year2026 parseSample year2026 30 3 taskHi taskNeg = false :=
    less_of_nan_right _ _ _ _ _ _ _ (score_taskNeg _ _ _ _)
  refine ⟨?_, ?_, ?_⟩
  · simp [listTasks, sortSlice, sinkLeft, h1, h2]
  · simp only [score_taskLo, score_taskHi, F64.lt_fin_fin]
    norm_num
  · simp only [score_taskLo, score_taskHi, F64.ge_fin_fin]
    norm_num

/-! ## C3: the selection of `/next` -/

/-- C3. Failing input of the next-task claim. The store holds the single task `taskNeg`
(minutesNeeded -10); under the default context its score is NaN, the test `s > bestScore`
against -1.0 fails, and the answer is the "none" signal although the store is not empty. -/
theorem C3_next_none_on_nonempty_store :
    score year2026 parseSample taskNeg year2026 30 3 = nan ∧
      nextTask year2026 parseSample [taskNeg] year2026 30 3 = none := by
  refine ⟨score_taskNeg _ _ _ _, ?_⟩
  simp [nextTask, nextStep, score_taskNeg]

/-! ## C4: ties in `/next` -/

/-- C4. Failing input of the tie-break claim. Two overdue tasks that differ only in id, title
and due date have the same score under the default context. When the map is ranged over with
the later-due task first, the `/next` loop keeps that task, while the listing puts the
earlier-due task first. -/
theorem C4_next_differs_from_head_of_listing :
    (score year2026 parseSample taskDueSecond year2026 30 3).ne
        (score year2026 parseSample taskDueFirst year2026 30 3) = false ∧
      nextTask year2026 parseSample [taskDueSecond, taskDueFirst] year2026 30 3 =
        some taskDueSecond ∧
      listTasks year2026 parseSample [taskDueSecond, taskDueFirst] year2026 30 3 =
        [taskDueFirst, taskDueSecond] ∧
      taskDueSecond ≠ taskDueFirst := by
  have h1 := score_nine_neutral_of year2026 parseSample taskDueFirst year2026 rfl rfl
    (urgency_taskDueFirst_overdue year2026 year2026 (by decide))
  have h2 := score_nine_neutral_of year2026 parseSample taskDueSecond year2026 rfl rfl
    (urgency_taskDueSecond_overdue year2026 year2026 (by decide))
  have hk1 : deadlineKey parseSample taskDueFirst = 1577836800000000000 := by decide
  have hk2 : deadlineKey parseSample taskDueSecond = 1577923200000000000 := by decide
  have hless : less year2026 parseSample year2026 30 3 taskDueFirst taskDueSecond = true := by
    simp only [less, h1, h2, hk1, hk2, F64.ne_fin_fin]
    norm_num
  refine ⟨?_, ?_, ?_, by decide⟩
  · simp [h1, h2]
  · simp only [nextTask, List.foldl, nextStep, h1, h2, F64.gt_fin_fin]
    norm_num
  · exact sortSlice_pair_swap _ _ _ hless

/-! ## C5: the envelope of the combined score -/

/-- C5, counterexample. `taskUrgent` (pleasant, 5 minutes, importance 5, overdue), which has
`minutesNeeded ≥ 0`, evaluated with free minutes 30 and stress 5, has a combined score that is
not within [-0.01, 1.0]: it exceeds 1.0. -/
theorem C5_score_exceeds_one :
    ¬ ((fin (-0.01)).le (score year2026 parseSample taskUrgent year2026 30 5) = true ∧
      (score year2026 parseSample taskUrgent year2026 30 5).le (fin 1.0) = true) := by
  obtain ⟨x, hx, hlb⟩ := score_taskUrgent_lower
  rw [hx]
  simp only [F64.le_fin_fin, decide_eq_true_eq, not_and, not_le]
  intro _
  linarith

/-- C5, amended. For every task with `0 ≤ minutesNeeded < 2^63` (any emotion tag, any
importance, due date absent, unparseable or parseable, any clock reading) and every context,
the combined score is a finite value in [-0.01, 1.105]. -/
theorem C5_score_envelope (wall : Time) (parse : String → Option Time) (t : Task) (now : Time)
    (freeMin stress : Int) (hm0 : 0 ≤ t.MinutesNeeded) (hm1 : t.MinutesNeeded < 2 ^ 63) :
    (fin (-0.01)).le (score wall parse t now freeMin stress) = true ∧
      (score wall parse t now freeMin stress).le (fin 1.105) = true := by
  obtain ⟨u, hu, hu0, hu1⟩ := urgencyScore_fin wall parse t now
  obtain ⟨e, he, he0, he1, he2⟩ := emotionScore_fin t stress
  by_cases hs : 4 ≤ stress
  · obtain ⟨f, hf, hf0, hf1⟩ := fitScore_fin t freeMin hm0
    obtain ⟨m, hm, hml, -⟩ := stressMatchScore_high_lower t stress hs hm0 hm1
    have hmu : m ≤ 0.6 := by
      rw [stressMatchScore_of_high t stress hs hm0] at hm
      have : m = clampR (1 / (1 + Real.logb 10 (5 + (t.MinutesNeeded : ℝ)))) 0 1 := by
        injection hm with h; exact h.symm
      rw [this]
      exact stressMatchScore_high_upper t hm0
    rw [score_eq_of_fin wall parse t now freeMin stress hu hf he hm]
    simp only [F64.le_fin_fin, decide_eq_true_eq]
    constructor <;> linarith
  · obtain ⟨he3, he4⟩ := he2 (by omega)
    by_cases hs2 : stress ≤ 2
    · obtain ⟨f, m, hf, hm, hf0, hm0', hfm⟩ := fit_stress_low_tradeoff t freeMin stress hs2 hm0
      rw [score_eq_of_fin wall parse t now freeMin stress hu hf he hm]
      simp only [F64.le_fin_fin, decide_eq_true_eq]
      constructor <;> linarith
    · obtain ⟨f, hf, hf0, hf1⟩ := fitScore_fin t freeMin hm0
      have hm := stressMatchScore_of_mid t stress hs hs2
      rw [score_eq_of_fin wall parse t now freeMin stress hu hf he hm]
      simp only [F64.le_fin_fin, decide_eq_true_eq]
      constructor <;> linarith

/-- Witness of C5 (amended): the envelope at the task of the counterexample. -/
theorem C5_score_envelope_witness :
    (fin (-0.01)).le (score year2026 parseSample taskUrgent year2026 30 5) = true ∧
      (score year2026 parseSample taskUrgent year2026 30 5).le (fin 1.105) = true :=
  C5_score_envelope year2026 parseSample taskUrgent year2026 30 5 (by decide) (by decide)

/-! ## C6: bounds of the sub-scores -/

/-- C6. Failing input of the sub-score bounds. For `taskNeg` (minutesNeeded -10) the fit score
with 30 free minutes and the stress-match score under stress 5 are NaN, which `clamp` returns
unchanged; neither lies in [0, 1], and the combined score is NaN, outside [-0.015, 1.145]. -/
theorem C6_subscores_nan_at_negative_minutes :
    fitScore taskNeg 30 = nan ∧
      (fin 0).le (fitScore taskNeg 30) = false ∧
      (fitScore taskNeg 30).le (fin 1) = false ∧
      stressMatchScore taskNeg 5 = nan ∧
      (fin 0).le (stressMatchScore taskNeg 5) = false ∧
      score year2026 parseSample taskNeg year2026 30 5 = nan ∧
      (fin (-0.015)).le (score year2026 parseSample taskNeg year2026 30 5) = false ∧
      (score year2026 parseSample taskNeg year2026 30 5).le (fin 1.145) = false := by
  have hf : fitScore taskNeg 30 = nan :=
    fitScore_of_negative taskNeg 30 (by norm_num) (by decide)
  have hm : stressMatchScore taskNeg 5 = nan :=
    stressMatchScore_of_negative taskNeg 5 (by norm_num) (by decide)
  have hs := score_taskNeg year2026 parseSample year2026 5
  simp [hf, hm, hs, F64.le]

/-! ## C7: the deadline key of a task without due date -/

/-- C7. Failing input of the "no deadline sorts last" claim. `taskFar` (due 2200-01-01) and
`taskOpen` (no due date) have the same score at the evaluation instant 2026-01-01 under the
default context; the deadline key of `taskFar` exceeds the key `1<<62` given to a task without
due date, and the listing puts `taskOpen` first for both iteration orders. -/
theorem C7_far_deadline_sorts_after_none :
    (score year2026 parseSample taskFar year2026 30 3).ne
        (score year2026 parseSample taskOpen year2026 30 3) = false ∧
      deadlineKey parseSample taskOpen < deadlineKey parseSample taskFar ∧
      listTasks year2026 parseSample [taskFar, taskOpen] year2026 30 3 = [taskOpen, taskFar] ∧
      listTasks year2026 parseSample [taskOpen, taskFar] year2026 30 3 = [taskOpen, taskFar] := by
  have h1 := score_nine_neutral_of year2026 parseSample taskFar year2026 rfl rfl urgency_taskFar
  have h2 := score_nine_neutral_of year2026 parseSample taskOpen year2026 rfl rfl urgency_taskOpen
  have hk1 : deadlineKey parseSample taskFar = 7258118400000000000 := by decide
  have hk2 : deadlineKey parseSample taskOpen = 4611686018427387904 := by decide
  have hless : less year2026 parseSample year2026 30 3 taskOpen taskFar = true := by
    simp only [less, h1, h2, hk1, hk2, F64.ne_fin_fin]
    norm_num
  have hless2 : less year2026 parseSample year2026 30 3 taskFar taskOpen = false := by
    simp only [less, h1, h2, hk1, hk2, F64.ne_fin_fin]
    norm_num
  refine ⟨?_, ?_, ?_, ?_⟩
  · simp [h1, h2]
  · rw [hk1, hk2]
    decide
  · exact sortSlice_pair_swap _ _ _ hless
  · exact sortSlice_pair_keep _ _ _ hless2

/-! ## C8: the comparator as a strict weak ordering -/

/-- C8. Failing input of the strict-weak-order claim, default context. `taskNeg` (score NaN) is
incomparable with `taskLo` and with `taskHi`, while `taskHi` is less than `taskLo`: being
incomparable is not transitive, and `taskNeg` and `taskLo` are incomparable with different
`minutesNeeded`. -/
theorem C8_incomparability_not_transitive :
    less year2026 parseSample year2026 30 3 taskLo taskNeg = false ∧
      less year2026 parseSample year2026 30 3 taskNeg taskLo = false ∧
      less year2026 parseSample year2026 30 3 taskNeg taskHi = false ∧
      less year2026 parseSample year2026 30 3 taskHi taskNeg = false ∧
      less year2026 parseSample year2026 30 3 taskHi taskLo = true ∧
      taskNeg.MinutesNeeded ≠ taskLo.MinutesNeeded :=
  ⟨less_of_nan_right _ _ _ _ _ _ _ (score_taskNeg _ _ _ _),
    less_of_nan_left _ _ _ _ _ _ _ (score_taskNeg _ _ _ _),
    less_of_nan_left _ _ _ _ _ _ _ (score_taskNeg _ _ _ _),
    less_of_nan_right _ _ _ _ _ _ _ (score_taskNeg _ _ _ _),
    less_taskHi_taskLo _ _ _, by decide⟩

/-! ## C9: the clock read by `urgencyScore` -/

/-- C9. Failing input of the purity claim. For `taskDueFirst` (due 2020-01-01T00:00:00Z) and the
same arguments (evaluation instant ninety minutes before the due date, free minutes 30,
stress 3), `urgencyScore` is 1.4 when the clock reads the due instant and 0.9 when the clock
reads ninety minutes earlier, and the two combined scores differ; at a given clock reading the
supplied instant has no effect. The minutes left come from the clock, not from the supplied
instant. -/
theorem C9_score_depends_on_clock :
    (∀ now now' : Time, urgencyScore year2020 parseSample taskDueFirst now =
        urgencyScore year2020 parseSample taskDueFirst now') ∧
      urgencyScore year2020 parseSample taskDueFirst (year2020 - ninetyMinutes) = fin 1.4 ∧
      urgencyScore (year2020 - ninetyMinutes) parseSample taskDueFirst
        (year2020 - ninetyMinutes) = fin 0.9 ∧
      (score year2020 parseSample taskDueFirst (year2020 - ninetyMinutes) 30 3).ne
        (score (year2020 - ninetyMinutes) parseSample taskDueFirst
          (year2020 - ninetyMinutes) 30 3) = true := by
  have hu1 := urgency_taskDueFirst_overdue year2020 (year2020 - ninetyMinutes) (le_refl _)
  have hu2 : urgencyScore (year2020 - ninetyMinutes) parseSample taskDueFirst
      (year2020 - ninetyMinutes) = fin 0.9 := by
    rw [urgencyScore_of_due (year2020 - ninetyMinutes) parseSample taskDueFirst
      (year2020 - ninetyMinutes) _ year2020 rfl parseSample_2020_01_01]
    have hm : minLeftR (year2020 - ninetyMinutes) year2020 = 90 := by
      rw [minLeftR_of_future (by decide) (by decide)]
      have : year2020 - (year2020 - ninetyMinutes) = 5400000000000 := by decide
      rw [this]
      norm_num
    have hw : wrap64 (taskDueFirst.Importance - 1) = 2 := by decide
    have hl : Real.logb 10 (10 + 90) = 2 := by
      have : (10 : ℝ) + 90 = 100 := by norm_num
      rw [this, logb10_hundred]
    rw [hm, hw, hl]
    have hv : (1 : ℝ) / 2 + 0.2 * ((2 : Int) : ℝ) = 0.9 := by norm_num
    rw [hv, clampR_of_mem (by norm_num) (by norm_num)]
  refine ⟨fun _ _ => rfl, hu1, hu2, ?_⟩
  rw [score_nine_neutral_of _ _ _ _ rfl rfl hu1, score_nine_neutral_of _ _ _ _ rfl rfl hu2]
  simp only [F64.ne_fin_fin]
  norm_num

/-! ## C10: a due date that does not parse -/

/-- C10. For every task whose `dueAt` is present but rejected by the parser, `urgencyScore`
equals its value for the same task without `dueAt`, which is `clamp(0.15*importance, 0, 0.8)`,
a finite value in [0, 0.8] (no error, no NaN); the comparator gives the task the same deadline
key as the task without `dueAt`, namely `1<<62`. -/
theorem C10_malformed_due_as_absent (wall : Time) (parse : String → Option Time) (t : Task)
    (now : Time) (s : String) (h : t.DueAt = some s) (hp : parse s = none) :
    urgencyScore wall parse t now =
        urgencyScore wall parse
          ⟨t.ID, t.Title, t.Emotion, t.MinutesNeeded, t.Importance, none⟩ now ∧
      urgencyScore wall parse t now = clamp (fin 0.15 * ofInt t.Importance) (fin 0) (fin 0.8) ∧
      (∃ u : ℝ, urgencyScore wall parse t now = fin u ∧ 0 ≤ u ∧ u ≤ 0.8) ∧
      deadlineKey parse t =
        deadlineKey parse ⟨t.ID, t.Title, t.Emotion, t.MinutesNeeded, t.Importance, none⟩ ∧
      deadlineKey parse t = 2 ^ 62 := by
  refine ⟨?_, ?_, ?_, ?_, ?_⟩
  · simp [urgencyScore, h, hp]
  · simp [urgencyScore, h, hp]
  · exact ⟨_, urgencyScore_of_unparsed wall parse t now s h hp,
      (clampR_bounds _ (by norm_num)).1, (clampR_bounds _ (by norm_num)).2⟩
  · simp [deadlineKey, h, hp]
  · simp [deadlineKey, h, hp]

/-- Witness of C10: a task whose `dueAt` is the string "tomorrow". -/
theorem C10_malformed_due_as_absent_witness :
    urgencyScore year2026 parseSample ⟨"t", "title", NEUTRAL, 9, 3, some "tomorrow"⟩ year2026 =
        urgencyScore year2026 parseSample ⟨"t", "title", NEUTRAL, 9, 3, none⟩ year2026 ∧
      deadlineKey parseSample ⟨"t", "title", NEUTRAL, 9, 3, some "tomorrow"⟩ = 2 ^ 62 :=
  have h := C10_malformed_due_as_absent year2026 parseSample
    ⟨"t", "title", NEUTRAL, 9, 3, some "tomorrow"⟩ year2026 "tomorrow" rfl (by decide)
  ⟨h.1, h.2.2.2.2⟩

/-! ## C11: urgency without due date -/

/-- C11. For every task without due date and every integer importance, `urgencyScore` equals
`clamp(0.15*importance, 0, 0.8)`, lies in [0, 0.8], and does not decrease when the importance
grows: a task without due date of greater or equal importance has a greater or equal urgency. -/
theorem C11_no_deadline_urgency (wall : Time) (parse : String → Option Time) (t t' : Task)
    (now : Time) (h : t.DueAt = none) (h' : t'.DueAt = none)
    (hle : t.Importance ≤ t'.Importance) :
    urgencyScore wall parse t now = clamp (fin 0.15 * ofInt t.Importance) (fin 0) (fin 0.8) ∧
      (fin 0).le (urgencyScore wall parse t now) = true ∧
      (urgencyScore wall parse t now).le (fin 0.8) = true ∧
      (urgencyScore wall parse t now).le (urgencyScore wall parse t' now) = true := by
  have hu := urgencyScore_of_none wall parse t now h
  have hu' := urgencyScore_of_none wall parse t' now h'
  have hb := @clampR_bounds (0.15 * (t.Importance : ℝ)) 0 0.8 (by norm_num)
  have hi : (t.Importance : ℝ) ≤ (t'.Importance : ℝ) := by exact_mod_cast hle
  have hm : clampR (0.15 * (t.Importance : ℝ)) 0 0.8 ≤ clampR (0.15 * (t'.Importance : ℝ)) 0 0.8 :=
    clampR_mono 0 0.8 (by norm_num) (by linarith)
  refine ⟨?_, ?_, ?_, ?_⟩
  · simp [urgencyScore, h]
  · rw [hu]
    simpa using hb.1
  · rw [hu]
    simpa using hb.2
  · rw [hu, hu']
    simpa using hm

/-- Witness of C11: `taskLo` (importance 1) and `taskHi` (importance 5), both without due date. -/
theorem C11_no_deadline_urgency_witness :
    (urgencyScore year2026 parseSample taskLo year2026).le (fin 0.8) = true ∧
      (urgencyScore year2026 parseSample taskLo year2026).le
        (urgencyScore year2026 parseSample taskHi year2026) = true :=
  have h := C11_no_deadline_urgency year2026 parseSample taskLo taskHi year2026 rfl rfl
    (by decide)
  ⟨h.2.2.1, h.2.2.2⟩

/-! ## C12: due dates in the past -/

theorem wrap64_of_range {n : Int} (h0 : -(2 ^ 63) ≤ n) (h1 : n < 2 ^ 63) : wrap64 n = n := by
  unfold wrap64
  rw [Int.emod_eq_of_lt (by omega) (by omega)]
  omega

theorem urgency_taskDueFirst_ninety (now : Time) :
    urgencyScore (year2020 - ninetyMinutes) parseSample taskDueFirst now = fin 0.9 := by
  rw [urgencyScore_of_due (year2020 - ninetyMinutes) parseSample taskDueFirst now _ year2020 rfl
    parseSample_2020_01_01]
  have hm : minLeftR (year2020 - ninetyMinutes) year2020 = 90 := by
    rw [minLeftR_of_future (by decide) (by decide)]
    have : year2020 - (year2020 - ninetyMinutes) = 5400000000000 := by decide
    rw [this]
    norm_num
  have hw : wrap64 (taskDueFirst.Importance - 1) = 2 := by decide
  have hl : Real.logb 10 (10 + 90) = 2 := by
    have : (10 : ℝ) + 90 = 100 := by norm_num
    rw [this, logb10_hundred]
  rw [hm, hw, hl]
  have hv : (1 : ℝ) / 2 + 0.2 * ((2 : Int) : ℝ) = 0.9 := by norm_num
  rw [hv, clampR_of_mem (by norm_num) (by norm_num)]

/-- C12, counterexample. (a) `taskDueFirst` is due exactly at the evaluation instant
2020-01-01T00:00:00Z, but when the clock read by `urgencyScore` shows ninety minutes less the
urgency is 0.9, not `clamp(1 + 0.2*(3 - 1), 0, 1.5) = 1.4`. (b) For the overdue task
`taskMinImportance`, whose importance is -2^63, the subtraction `importance - 1` wraps to
2^63 - 1 and the urgency is 1.5, while `clamp(1 + 0.2*(importance - 1), 0, 1.5)` is 0. -/
theorem C12_past_deadline_counterexample :
    (urgencyScore (year2020 - ninetyMinutes) parseSample taskDueFirst year2020).ne
        (clamp (fin (1 + 0.2 * ((taskDueFirst.Importance : ℝ) - 1))) (fin 0) (fin 1.5)) = true ∧
      (urgencyScore year2026 parseSample taskMinImportance year2026).ne
        (clamp (fin (1 + 0.2 * ((taskMinImportance.Importance : ℝ) - 1))) (fin 0) (fin 1.5))
          = true := by
  constructor
  · have h := urgency_taskDueFirst_ninety year2020
    rw [h, clamp_fin]
    have hv : (1 : ℝ) + 0.2 * ((taskDueFirst.Importance : ℝ) - 1) = 1.4 := by
      simp [taskDueFirst]
      norm_num
    rw [hv, clampR_of_mem (by norm_num) (by norm_num)]
    simp only [F64.ne_fin_fin]
    norm_num
  · rw [urgencyScore_of_overdue year2026 parseSample taskMinImportance year2026 _ year2020 rfl
      parseSample_2020_01_01 (by decide), clamp_fin]
    have hw : wrap64 (taskMinImportance.Importance - 1) = 9223372036854775807 := by decide
    rw [hw, clampR_of_ge_hi (by norm_num) (by norm_num)]
    have hv : clampR (1 + 0.2 * ((taskMinImportance.Importance : ℝ) - 1)) 0 1.5 = 0 := by
      apply clampR_of_le_lo (by norm_num)
      simp [taskMinImportance]
      norm_num
    rw [hv]
    simp only [F64.ne_fin_fin]
    norm_num

/-- C12, amended. Take a task whose parseable due date is at or before the evaluation instant
`now`, evaluated at a clock reading `wall` that is not before `now`. For every integer
importance its urgency is a finite value in [0, 1.5], and it equals the urgency of every task
of the same importance whose due date is at or before `now` (in particular the same task due
exactly at `now`): it does not depend on how far in the past the due date is. For every
importance other than -2^63 (where `importance - 1` wraps) it equals
`clamp(1 + 0.2*(importance - 1), 0, 1.5)`. -/
theorem C12_past_deadline_urgency (wall : Int) (parse : String → Option Time) (t t' : Task)
    (now : Int) (s s' : String) (d d' : Int)
    (h : t.DueAt = some s) (hp : parse s = some d) (hd : d ≤ now) (hw : now ≤ wall)
    (h' : t'.DueAt = some s') (hp' : parse s' = some d') (hd' : d' ≤ now)
    (hi : t'.Importance = t.Importance) :
    (∃ u : ℝ, urgencyScore wall parse t now = fin u ∧ 0 ≤ u ∧ u ≤ 1.5) ∧
      urgencyScore wall parse t' now = urgencyScore wall parse t now ∧
      (-(2 ^ 63) < t.Importance → t.Importance < 2 ^ 63 →
        urgencyScore wall parse t now =
          clamp (fin (1 + 0.2 * ((t.Importance : ℝ) - 1))) (fin 0) (fin 1.5)) := by
  have hu := urgencyScore_of_overdue wall parse t now s d h hp (le_trans hd hw)
  have hu' := urgencyScore_of_overdue wall parse t' now s' d' h' hp' (le_trans hd' hw)
  refine ⟨urgencyScore_fin wall parse t now, ?_, ?_⟩
  · rw [hu, hu', hi]
  · intro h0 h1
    rw [hu, clamp_fin, wrap64_of_range (by omega) (by omega)]
    push_cast
    rfl

/-- Witness of C12 (amended): `taskDueFirst` and `taskDueSecond`, both overdue at the evaluation
instant 2026-01-01 and of importance 3. -/
theorem C12_past_deadline_urgency_witness :
    urgencyScore year2026 parseSample taskDueSecond year2026 =
        urgencyScore year2026 parseSample taskDueFirst year2026 ∧
      urgencyScore year2026 parseSample taskDueFirst year2026 =
        clamp (fin (1 + 0.2 * ((taskDueFirst.Importance : ℝ) - 1))) (fin 0) (fin 1.5) :=
  have h := C12_past_deadline_urgency year2026 parseSample taskDueFirst taskDueSecond year2026
    _ _ year2020 1577923200000000000 rfl parseSample_2020_01_01 (by decide) (le_refl _)
    rfl parseSample_2020_01_02 (by decide) rfl
  ⟨h.2.1, h.2.2 (by decide) (by decide)⟩

/-! ## C13: fit without free time -/

/-- C13. For every task, whatever its `minutesNeeded` (zero and negative included), and every
`freeMin ≤ 0`, `fitScore` returns exactly 0. -/
theorem C13_fit_zero_without_free_time (t : Task) (freeMin : Int) (h : freeMin ≤ 0) :
    fitScore t freeMin = fin 0 :=
  fitScore_of_noFree t freeMin h

/-- Witness of C13: the task with `minutesNeeded = -10` and `freeMin = -5`. -/
theorem C13_fit_zero_without_free_time_witness : fitScore taskNeg (-5) = fin 0 :=
  C13_fit_zero_without_free_time taskNeg (-5) (by decide)

/-! ## The task store -/

theorem Store.keys_insert (tasks : Store) (id : String) (t : Task) :
    (tasks.insert id t).keys = insert id tasks.keys := by
  ext k
  rw [Finmap.mem_keys, Finmap.mem_insert, Finset.mem_insert, Finmap.mem_keys]

theorem Store.len_insert (tasks : Store) (id : String) (t : Task) :
    Store.len (tasks.insert id t) = if id ∈ tasks then Store.len tasks else Store.len tasks + 1 := by
  unfold Store.len
  rw [Store.keys_insert]
  split_ifs with h
  · rw [Finset.card_insert_of_mem (Finmap.mem_keys.mpr h)]
  · rw [Finset.card_insert_of_not_mem (fun hk => h (Finmap.mem_keys.mp hk))]

theorem Store.len_erase (tasks : Store) (id : String) :
    Store.len (tasks.erase id) = if id ∈ tasks then Store.len tasks - 1 else Store.len tasks := by
  unfold Store.len
  rw [Finmap.keys_erase]
  split_ifs with h
  · rw [Finset.card_erase_of_mem (Finmap.mem_keys.mpr h)]
  · rw [Finset.erase_eq_of_not_mem (fun hk => h (Finmap.mem_keys.mp hk))]

theorem Store.len_pos_of_mem {tasks : Store} {id : String} (h : id ∈ tasks) : 0 < Store.len tasks :=
  Finset.card_pos.mpr ⟨id, Finmap.mem_keys.mpr h⟩

theorem Store.erase_of_not_mem {tasks : Store} {id : String} (h : id ∉ tasks) :
    tasks.erase id = tasks := by
  apply Finmap.ext_lookup
  intro k
  by_cases hk : k = id
  · rw [hk, Finmap.lookup_erase, eq_comm, Finmap.lookup_eq_none]
    exact h
  · exact Finmap.lookup_erase_ne hk

/-! ## C14: upsert -/

/-- C14. `upsertTask` answers 400 exactly when the id is empty, and then leaves the store
unchanged. For a non-empty id it answers `ok`; afterwards the store maps the id to exactly the
given task, the entry of every other id is unchanged, and the reported count is the previous
count when the id was present and the previous count plus 1 when it was absent. -/
theorem C14_upsert_contract (tasks : Store) (t : Task) :
    ((∃ msg, (upsertTask tasks t).2 = Reply.badRequest msg) ↔ t.ID = "") ∧
      (t.ID = "" → (upsertTask tasks t).1 = tasks) ∧
      (t.ID ≠ "" →
        (upsertTask tasks t).2 =
            Reply.ok (if t.ID ∈ tasks then Store.len tasks else Store.len tasks + 1) ∧
          (upsertTask tasks t).1.lookup t.ID = some t ∧
          ∀ id, id ≠ t.ID → (upsertTask tasks t).1.lookup id = tasks.lookup id) := by
  by_cases h : t.ID = ""
  · refine ⟨?_, ?_, fun hne => absurd h hne⟩
    · simp [upsertTask, h]
    · intro _
      simp [upsertTask, h]
  · refine ⟨?_, fun he => absurd he h, fun _ => ⟨?_, ?_, ?_⟩⟩
    · simp [upsertTask, h]
    · simp only [upsertTask, h, if_false]
      rw [Store.len_insert]
    · simp only [upsertTask, h, if_false]
      exact Finmap.lookup_insert (b := t) tasks
    · intro id hid
      simp only [upsertTask, h, if_false]
      exact Finmap.lookup_insert_of_ne tasks hid

/-- Witness of C14: `taskLo` upserted into the empty store, and the record without id refused. -/
theorem C14_upsert_contract_witness :
    (upsertTask ∅ taskLo).1.lookup taskLo.ID = some taskLo ∧
      (upsertTask ∅ taskNoID).1 = ∅ :=
  ⟨((C14_upsert_contract ∅ taskLo).2.2 (by decide)).2.1,
    (C14_upsert_contract ∅ taskNoID).2.1 rfl⟩

/-! ## C15: delete -/

/-- C15. `deleteTask` answers `ok` for every id. When the id is not in the store, the store and
the count are unchanged. When it is, exactly that entry is removed, every other entry is
unchanged and the count drops by 1. Deleting the same id a second time changes nothing more. -/
theorem C15_delete_contract (tasks : Store) (id : String) :
    (∃ n, (deleteTask tasks id).2 = Reply.ok n) ∧
      (id ∉ tasks → deleteTask tasks id = (tasks, Reply.ok (Store.len tasks))) ∧
      (id ∈ tasks →
        (deleteTask tasks id).1.lookup id = none ∧
          (∀ k, k ≠ id → (deleteTask tasks id).1.lookup k = tasks.lookup k) ∧
          (deleteTask tasks id).2 = Reply.ok (Store.len tasks - 1) ∧ 0 < Store.len tasks) ∧
      deleteTask (deleteTask tasks id).1 id = deleteTask tasks id := by
  refine ⟨⟨_, rfl⟩, ?_, ?_, ?_⟩
  · intro h
    simp only [deleteTask, Store.erase_of_not_mem h]
  · intro h
    refine ⟨Finmap.lookup_erase id tasks, fun k hk => Finmap.lookup_erase_ne hk, ?_,
      Store.len_pos_of_mem h⟩
    simp only [deleteTask, Store.len_erase, h, if_true]
  · have hn : id ∉ tasks.erase id := Finmap.not_mem_erase_self
    simp only [deleteTask, Store.erase_of_not_mem hn]

/-- Witness of C15: deleting an id from the empty store, once and twice. -/
theorem C15_delete_contract_witness :
    deleteTask ∅ "lo" = (∅, Reply.ok (Store.len ∅)) ∧
      deleteTask (deleteTask ∅ "lo").1 "lo" = deleteTask ∅ "lo" :=
  ⟨(C15_delete_contract ∅ "lo").2.1 Finmap.not_mem_empty,
    (C15_delete_contract ∅ "lo").2.2.2⟩

/-! ## Keys and ids -/

theorem KeyIsID_empty : KeyIsID ∅ := by
  intro id t h
  rw [Finmap.lookup_empty] at h
  exact absurd h (by simp)

theorem KeyIsID_insert {tasks : Store} (h : KeyIsID tasks) (t : Task) :
    KeyIsID (tasks.insert t.ID t) := by
  intro id u hu
  by_cases hid : id = t.ID
  · rw [hid, Finmap.lookup_insert] at hu
    rw [hid]
    have : t = u := by simpa using hu
    rw [← this]
  · rw [Finmap.lookup_insert_of_ne _ hid] at hu
    exact h id u hu

theorem KeyIsID_erase {tasks : Store} (h : KeyIsID tasks) (id : String) :
    KeyIsID (tasks.erase id) := by
  intro k u hu
  by_cases hk : k = id
  · rw [hk, Finmap.lookup_erase] at hu
    exact absurd hu (by simp)
  · rw [Finmap.lookup_erase_ne hk] at hu
    exact h k u hu

theorem KeyIsID_foldl_insert (arr : List Task) {tasks : Store} (h : KeyIsID tasks) :
    KeyIsID (arr.foldl (fun m t => m.insert t.ID t) tasks) := by
  induction arr generalizing tasks with
  | nil => exact h
  | cons a rest ih => exact ih (KeyIsID_insert h a)

/-- In every store produced by `load`, every key is the id of the task stored under it. -/
theorem KeyIsID_load (decoded : Option (List Task)) {tasks : Store} (h : KeyIsID tasks) :
    KeyIsID (load decoded tasks) := by
  cases decoded with
  | none => exact h
  | some arr => exact KeyIsID_foldl_insert arr KeyIsID_empty

theorem KeyIsID_upsertTask {tasks : Store} (h : KeyIsID tasks) (t : Task) :
    KeyIsID (upsertTask tasks t).1 := by
  unfold upsertTask
  split_ifs with he
  · exact h
  · exact KeyIsID_insert h t

theorem KeyIsID_deleteTask {tasks : Store} (h : KeyIsID tasks) (id : String) :
    KeyIsID (deleteTask tasks id).1 :=
  KeyIsID_erase h id

/-- Lookup in a store filled from a task sequence with pairwise distinct ids. -/
theorem lookup_foldl_insert (arr : List Task) (hnd : (arr.map Task.ID).Nodup) (id : String)
    (t : Task) :
    (arr.foldl (fun m u => m.insert u.ID u) (∅ : Store)).lookup id = some t ↔
      t ∈ arr ∧ t.ID = id := by
  induction arr using List.reverseRecOn with
  | nil => simp [Finmap.lookup_empty]
  | append_singleton l a ih =>
    rw [List.map_append, List.nodup_append] at hnd
    obtain ⟨hl, -, hdisj⟩ := hnd
    have ha : ∀ u ∈ l, u.ID ≠ a.ID := by
      intro u hu he
      exact hdisj (List.mem_map_of_mem Task.ID hu) (by simp [he])
    rw [List.foldl_append, List.foldl_cons, List.foldl_nil]
    by_cases hid : id = a.ID
    · rw [hid, Finmap.lookup_insert]
      constructor
      · intro h
        have : a = t := by simpa using h
        rw [← this]
        exact ⟨by simp, rfl⟩
      · rintro ⟨hm, he⟩
        rw [List.mem_append] at hm
        rcases hm with hm | hm
        · exact absurd he (ha t hm)
        · have : t = a := by simpa using hm
          rw [this]
    · rw [Finmap.lookup_insert_of_ne _ hid, ih hl]
      constructor
      · rintro ⟨hm, he⟩
        exact ⟨List.mem_append_left _ hm, he⟩
      · rintro ⟨hm, he⟩
        rw [List.mem_append] at hm
        rcases hm with hm | hm
        · exact ⟨hm, he⟩
        · have : t = a := by simpa using hm
          rw [this] at he
          exact absurd he.symm hid

/-- What a `range` loop yields from a store whose keys are the ids of its tasks: the ids are
pairwise distinct, and a task is yielded exactly when the store holds it under its id. -/
theorem Ranges_spec {tasks : Store} {arr : List Task} (hk : KeyIsID tasks)
    (hr : Ranges tasks arr) :
    (arr.map Task.ID).Nodup ∧
      ∀ (id : String) (t : Task), tasks.lookup id = some t ↔ t ∈ arr ∧ t.ID = id := by
  obtain ⟨l, hl, harr⟩ := hr
  have hent : ∀ e ∈ l.entries, e.2.ID = e.1 := by
    intro e he
    apply hk e.1 e.2
    rw [← hl, Finmap.lookup_toFinmap]
    exact AList.mem_lookup_iff.mpr he
  constructor
  · have hmap : arr.map Task.ID = l.keys := by
      rw [harr, List.map_map]
      exact List.map_congr_left (fun e he => hent e he)
    rw [hmap]
    exact l.keys_nodup
  · intro id t
    rw [← hl, Finmap.lookup_toFinmap, ← Option.mem_def, AList.mem_lookup_iff, harr]
    constructor
    · intro he
      exact ⟨List.mem_map.mpr ⟨⟨id, t⟩, he, rfl⟩, hent _ he⟩
    · rintro ⟨hm, hid⟩
      obtain ⟨e, he, het⟩ := List.mem_map.mp hm
      have h1 : e.1 = id := by rw [← hent e he, het, hid]
      have : e = ⟨id, t⟩ := by
        cases e with
        | mk k v =>
          simp only at h1 het
          rw [h1, het]
      rw [← this]
      exact he

/-! ## C16: persistence round trip -/

theorem upsertAll_eq_foldl_insert (ts : List Task) (tasks : Store)
    (hne : ∀ t ∈ ts, t.ID ≠ "") :
    upsertAll tasks ts = ts.foldl (fun m t => m.insert t.ID t) tasks := by
  unfold upsertAll
  induction ts generalizing tasks with
  | nil => rfl
  | cons a rest ih =>
    have ha : a.ID ≠ "" := hne a (List.mem_cons_self _ _)
    rw [List.foldl_cons, List.foldl_cons, ih _ (fun t ht => hne t (List.mem_cons_of_mem _ ht))]
    simp [upsertTask, ha]

/-- Loading what `save` wrote from a store whose keys are the ids of its tasks gives back that
store. -/
theorem load_of_save {tasks : Store} {written : List Task} (hk : KeyIsID tasks)
    (hs : save tasks written) (old : Store) : load (some written) old = tasks := by
  obtain ⟨hnd, hspec⟩ := Ranges_spec hk hs
  apply Finmap.ext_lookup
  intro id
  apply Option.ext
  intro t
  show (written.foldl (fun m u => m.insert u.ID u) (∅ : Store)).lookup id = some t ↔
    tasks.lookup id = some t
  rw [lookup_foldl_insert written hnd id t, hspec id t]

/-- The number of entries of a store is the length of every sequence a `range` loop yields. -/
theorem Store.len_of_ranges {tasks : Store} {arr : List Task} (hr : Ranges tasks arr) :
    Store.len tasks = arr.length := by
  obtain ⟨l, hl, harr⟩ := hr
  unfold Store.len
  rw [← hl, Finset.card_def, Finmap.keys_val, Multiset.coe_card, harr, List.length_map]
  unfold AList.keys List.keys
  rw [List.length_map]

theorem Ranges_perm_of_foldl_insert {ts arr : List Task} (hnd : (ts.map Task.ID).Nodup)
    (hr : Ranges (ts.foldl (fun m t => m.insert t.ID t) (∅ : Store)) arr) : arr.Perm ts := by
  have hk : KeyIsID (ts.foldl (fun m t => m.insert t.ID t) (∅ : Store)) :=
    KeyIsID_foldl_insert ts KeyIsID_empty
  obtain ⟨hnd', hspec⟩ := Ranges_spec hk hr
  apply (List.perm_ext_iff_of_nodup (List.Nodup.of_map _ hnd') (List.Nodup.of_map _ hnd)).mpr
  intro t
  constructor
  · intro ht
    have h1 := (hspec t.ID t).mpr ⟨ht, rfl⟩
    exact ((lookup_foldl_insert ts hnd t.ID t).mp h1).1
  · intro ht
    have h1 := (lookup_foldl_insert ts hnd t.ID t).mpr ⟨ht, rfl⟩
    exact ((hspec t.ID t).mp h1).1

/-- C16. Upsert N tasks with pairwise distinct non-empty ids into the empty store, in the order
of the list `ts`, and let `written` be a sequence that `save` can write (the values in
any iteration order). Loading `written` gives back the same store; `written` and every
snapshot of the reloaded store are permutations of the N upserted tasks (equal as whole
records), and the reloaded store has N entries. JSON encoding and decoding are taken as the
identity. -/
theorem C16_persistence_round_trip (ts written : List Task)
    (hnd : (ts.map Task.ID).Nodup) (hne : ∀ t ∈ ts, t.ID ≠ "")
    (hs : save (upsertAll ∅ ts) written) :
    load (some written) ∅ = upsertAll ∅ ts ∧
      written.Perm ts ∧
      Store.len (load (some written) ∅) = ts.length ∧
      ∀ snapshot, Ranges (load (some written) ∅) snapshot → snapshot.Perm ts := by
  have he := upsertAll_eq_foldl_insert ts ∅ hne
  have hk : KeyIsID (upsertAll ∅ ts) := by
    rw [he]
    exact KeyIsID_foldl_insert ts KeyIsID_empty
  have hl := load_of_save hk hs ∅
  have hp : written.Perm ts := Ranges_perm_of_foldl_insert hnd (by rw [← he]; exact hs)
  refine ⟨hl, hp, ?_, ?_⟩
  · rw [hl, Store.len_of_ranges hs]
    exact hp.length_eq
  · intro snapshot hsn
    rw [hl, he] at hsn
    exact Ranges_perm_of_foldl_insert hnd hsn

theorem save_taskLo_taskHi : save (upsertAll ∅ [taskLo, taskHi]) [taskHi, taskLo] := by
  refine ⟨AList.insert "hi" taskHi (AList.insert "lo" taskLo ∅), ?_, ?_⟩
  · rw [← Finmap.insert_toFinmap, ← Finmap.insert_toFinmap, Finmap.empty_toFinmap]
    have h1 : ¬ taskLo.ID = "" := by decide
    have h2 : ¬ taskHi.ID = "" := by decide
    simp only [upsertAll, List.foldl_cons, List.foldl_nil, upsertTask, h1, h2, if_false]
    rfl
  · decide

/-- Witness of C16: `taskLo` then `taskHi` are upserted, and `save` writes them in the other
order. -/
theorem C16_persistence_round_trip_witness :
    load (some [taskHi, taskLo]) ∅ = upsertAll ∅ [taskLo, taskHi] ∧
      [taskHi, taskLo].Perm [taskLo, taskHi] ∧
      Store.len (load (some [taskHi, taskLo]) ∅) = 2 :=
  have h := C16_persistence_round_trip [taskLo, taskHi] [taskHi, taskLo] (by decide)
    (by decide) save_taskLo_taskHi
  ⟨h.1, h.2.1, h.2.2.1⟩

/-! ## C17: the id invariant of the store -/

/-- In every state reached by `load` followed by upserts and deletes, every key is the id of
the task stored under it. -/
theorem KeyIsID_reachable (decoded : Option (List Task)) (ops : List StoreOp) :
    KeyIsID (applyOps (load decoded ∅) ops) := by
  unfold applyOps
  have h0 : KeyIsID (load decoded ∅) := KeyIsID_load decoded KeyIsID_empty
  generalize load decoded ∅ = tasks at h0
  induction ops generalizing tasks with
  | nil => exact h0
  | cons op rest ih =>
    rw [List.foldl_cons]
    apply ih
    cases op with
    | upsert t => exact KeyIsID_upsertTask h0 t
    | delete id => exact KeyIsID_deleteTask h0 id

/-- Upserts and deletes never introduce the empty key. -/
theorem applyOps_no_empty_key (tasks : Store) (ops : List StoreOp) (h : "" ∉ tasks) :
    "" ∉ applyOps tasks ops := by
  unfold applyOps
  induction ops generalizing tasks with
  | nil => exact h
  | cons op rest ih =>
    rw [List.foldl_cons]
    apply ih
    cases op with
    | upsert t =>
      show "" ∉ (upsertTask tasks t).1
      unfold upsertTask
      split_ifs with he
      · exact h
      · intro hm
        rcases Finmap.mem_insert.mp hm with h1 | h1
        · exact he h1.symm
        · exact h h1
    | delete id =>
      intro hm
      exact h (Finmap.mem_erase.mp hm).2

/-- C17. Failing input of the id invariant. Loading a data file that holds a task record with
the empty id stores it under the empty key, and the key is still there after later upserts and
deletes of other ids; the same record sent to `POST /tasks` is refused. -/
theorem C17_load_admits_empty_id :
    (load (some [taskNoID]) ∅).lookup "" = some taskNoID ∧
      "" ∈ load (some [taskNoID]) ∅ ∧
      "" ∈ applyOps (load (some [taskNoID]) ∅) [StoreOp.upsert taskLo, StoreOp.delete "hi"] ∧
      upsertTask ∅ taskNoID = (∅, Reply.badRequest "id required") := by
  have h1 : (load (some [taskNoID]) ∅).lookup "" = some taskNoID := by
    show (Finmap.insert taskNoID.ID taskNoID (∅ : Store)).lookup "" = some taskNoID
    exact Finmap.lookup_insert (b := taskNoID) (∅ : Store)
  have h2 : "" ∈ load (some [taskNoID]) ∅ := Finmap.mem_of_lookup_eq_some h1
  refine ⟨h1, h2, ?_, ?_⟩
  · have hlo : ¬ taskLo.ID = "" := by decide
    show "" ∈ Finmap.erase "hi" (upsertTask (load (some [taskNoID]) ∅) taskLo).1
    rw [Finmap.mem_erase]
    refine ⟨by decide, ?_⟩
    simp only [upsertTask, hlo, if_false]
    exact Finmap.mem_insert.mpr (Or.inr h2)
  · simp [upsertTask, taskNoID]

/-! ## C18: defaults of the query context -/

theorem foldl_digits_ge (cs : List Char) (n : Nat) :
    n ≤ cs.foldl (fun n c => n * 10 + (c.toNat - 48)) n := by
  induction cs generalizing n with
  | nil => exact le_refl _
  | cons c cs ih =>
    rw [List.foldl_cons]
    exact le_trans (by omega) (ih _)

/-- The digit loop in closed form: a range error when the leading digits exceed 2^64 - 1,
otherwise the value when all characters are digits, otherwise a syntax error. -/
theorem parseUintLoop_spec (cs : List Char) (n : Nat) (hn : n ≤ 2 ^ 64 - 1) :
    parseUintLoop n cs =
      if 2 ^ 64 - 1 < (cs.takeWhile Char.isDigit).foldl (fun n c => n * 10 + (c.toNat - 48)) n
      then UintResult.rangeError
      else if cs.all Char.isDigit then
        UintResult.value (cs.foldl (fun n c => n * 10 + (c.toNat - 48)) n)
      else UintResult.syntaxError := by
  induction cs generalizing n with
  | nil =>
    simp [parseUintLoop]
    rw [if_neg (by omega)]
  | cons c cs ih =>
    unfold parseUintLoop
    by_cases hc : c.isDigit = true
    · simp only [hc, Bool.not_true, Bool.false_eq_true, if_false, List.takeWhile_cons_of_pos,
        List.foldl_cons, List.all_cons, Bool.true_and]
      by_cases ho : 2 ^ 64 - 1 < n * 10 + (c.toNat - 48)
      · have := foldl_digits_ge (cs.takeWhile Char.isDigit) (n * 10 + (c.toNat - 48))
        rw [if_pos ho, if_pos (lt_of_lt_of_le ho this)]
      · rw [if_neg ho]
        exact ih _ (by omega)
    · have hc' : c.isDigit = false := by simpa using hc
      simp only [hc', Bool.not_false, if_true, List.all_cons, Bool.false_and]
      rw [List.takeWhile_cons_of_neg (by simp [hc'])]
      simp
      rw [if_neg (by omega)]

theorem ParseUint_of_digits {ds : List Char} (hne : ds.isEmpty = false)
    (hall : ds.all Char.isDigit = true) :
    ParseUint ds =
      if 2 ^ 64 - 1 < digitsValue ds then UintResult.rangeError
      else UintResult.value (digitsValue ds) := by
  have htw : ds.takeWhile Char.isDigit = ds := by
    rw [List.takeWhile_eq_self_iff]
    intro c hc
    exact (List.all_eq_true.mp hall) c hc
  unfold ParseUint
  rw [hne, parseUintLoop_spec ds 0 (by norm_num), htw, hall]
  simp [digitsValue]

theorem ParseUint_of_not_digits {cs : List Char}
    (h : (cs.isEmpty || !cs.all Char.isDigit) = true) :
    ParseUint cs =
      if 2 ^ 64 - 1 < digitsValue (cs.takeWhile Char.isDigit) then UintResult.rangeError
      else UintResult.syntaxError := by
  unfold ParseUint
  by_cases he : cs.isEmpty = true
  · have : cs = [] := List.isEmpty_iff.mp he
    subst this
    simp [digitsValue]
  · have he' : cs.isEmpty = false := by simpa using he
    rw [he'] at h
    have hall : cs.all Char.isDigit = false := by simpa using h
    rw [he', parseUintLoop_spec cs 0 (by norm_num), hall]
    simp [digitsValue]

theorem decimal_eq (s : String) :
    decimal s =
      if ((afterSign s).isEmpty || !(afterSign s).all Char.isDigit) = true then none
      else if s.toList.head? = some '-' then some (-(digitsValue (afterSign s) : Int))
      else some (digitsValue (afterSign s) : Int) := rfl

/-- On a decimal integer, `Atoi` returns its value brought into the `int` range. -/
theorem Atoi_of_decimal {s : String} {v : Int} (h : decimal s = some v) :
    Atoi s = if v < -(2 ^ 63) then -(2 ^ 63) else if 2 ^ 63 - 1 < v then 2 ^ 63 - 1 else v := by
  rw [decimal_eq] at h
  by_cases h1 : ((afterSign s).isEmpty || !(afterSign s).all Char.isDigit) = true
  · rw [if_pos h1] at h
    exact absurd h (by simp)
  · rw [if_neg h1] at h
    have h1' : (afterSign s).isEmpty = false ∧ (afterSign s).all Char.isDigit = true := by
      simpa using h1
    have hp := ParseUint_of_digits h1'.1 h1'.2
    unfold Atoi
    generalize digitsValue (afterSign s) = un at h hp
    by_cases h2 : s.toList.head? = some '-'
    · rw [if_pos h2] at h
      have hv : v = -(un : Int) := by
        have := Option.some.inj h
        omega
      have hm : hasMinus s = true := decide_eq_true h2
      by_cases ho : 2 ^ 64 - 1 < un
      · rw [hp, if_pos ho, hv, hm]
        simp only [if_true]
        rw [if_pos (by omega)]
      · rw [hp, if_neg ho, hv, hm]
        simp only [if_true]
        split_ifs <;> omega
    · rw [if_neg h2] at h
      have hv : v = (un : Int) := by
        have := Option.some.inj h
        omega
      have hm : hasMinus s = false := decide_eq_false h2
      by_cases ho : 2 ^ 64 - 1 < un
      · rw [hp, if_pos ho, hv, hm]
        simp only [Bool.false_eq_true, if_false]
        rw [if_neg (by omega), if_pos (by omega)]
      · rw [hp, if_neg ho, hv, hm]
        simp only [Bool.false_eq_true, if_false]
        split_ifs <;> omega

/-- On a string that is not a decimal integer, `Atoi` returns 0, unless the leading digits
exceed 2^64 - 1: the range error then comes first and the bound of the `int` range on the side
of the sign is returned. -/
theorem Atoi_of_not_decimal {s : String} (h : decimal s = none) :
    Atoi s =
      if 2 ^ 64 - 1 < leadingValue s then (if hasMinus s then -(2 ^ 63) else 2 ^ 63 - 1)
      else 0 := by
  rw [decimal_eq] at h
  by_cases h1 : ((afterSign s).isEmpty || !(afterSign s).all Char.isDigit) = true
  · have hp := ParseUint_of_not_digits h1
    unfold Atoi
    have hl : leadingValue s = digitsValue ((afterSign s).takeWhile Char.isDigit) := rfl
    rw [hl]
    by_cases ho : 2 ^ 64 - 1 < digitsValue ((afterSign s).takeWhile Char.isDigit)
    · rw [hp, if_pos ho, if_pos ho]
    · rw [hp, if_neg ho, if_neg ho]
  · rw [if_neg h1] at h
    split_ifs at h

theorem Atoi_of_decimal_range {s : String} {v : Int} (h : decimal s = some v)
    (h0 : -(2 ^ 63) ≤ v) (h1 : v < 2 ^ 63) : Atoi s = v := by
  rw [Atoi_of_decimal h]
  split_ifs <;> omega

theorem Atoi_of_decimal_above {s : String} {v : Int} (h : decimal s = some v)
    (h1 : 2 ^ 63 ≤ v) : Atoi s = 2 ^ 63 - 1 := by
  rw [Atoi_of_decimal h]
  split_ifs <;> omega

theorem Atoi_of_decimal_below {s : String} {v : Int} (h : decimal s = some v)
    (h1 : v < -(2 ^ 63)) : Atoi s = -(2 ^ 63) := by
  rw [Atoi_of_decimal h, if_pos h1]

theorem Atoi_of_syntax_error {s : String} (h : decimal s = none)
    (hl : leadingValue s ≤ 2 ^ 64 - 1) : Atoi s = 0 := by
  rw [Atoi_of_not_decimal h, if_neg (by omega)]

theorem Atoi_of_leading_overflow {s : String} (h : decimal s = none)
    (hl : 2 ^ 64 - 1 < leadingValue s) :
    Atoi s = if hasMinus s then -(2 ^ 63) else 2 ^ 63 - 1 := by
  rw [Atoi_of_not_decimal h, if_pos hl]

theorem decimal_empty : decimal "" = none := by decide

theorem Atoi_empty : Atoi "" = 0 := by decide

/-- The value a handler uses for a query parameter with default `d`, by cases on the string
supplied. -/
theorem defaulted_cases (raw : Option String) (d : Int) :
    (raw = none → (if Atoi (Get raw) = 0 then d else Atoi (Get raw)) = d) ∧
      (∀ s, raw = some s → decimal s = none → leadingValue s ≤ 2 ^ 64 - 1 →
        (if Atoi (Get raw) = 0 then d else Atoi (Get raw)) = d) ∧
      (∀ s, raw = some s → decimal s = some 0 →
        (if Atoi (Get raw) = 0 then d else Atoi (Get raw)) = d) ∧
      (∀ s v, raw = some s → decimal s = some v → v ≠ 0 → -(2 ^ 63) ≤ v → v < 2 ^ 63 →
        (if Atoi (Get raw) = 0 then d else Atoi (Get raw)) = v) ∧
      (∀ s v, raw = some s → decimal s = some v → 2 ^ 63 ≤ v →
        (if Atoi (Get raw) = 0 then d else Atoi (Get raw)) = 2 ^ 63 - 1) ∧
      (∀ s v, raw = some s → decimal s = some v → v < -(2 ^ 63) →
        (if Atoi (Get raw) = 0 then d else Atoi (Get raw)) = -(2 ^ 63)) ∧
      (∀ s, raw = some s → decimal s = none → 2 ^ 64 - 1 < leadingValue s →
        (if Atoi (Get raw) = 0 then d else Atoi (Get raw)) =
          if hasMinus s then -(2 ^ 63) else 2 ^ 63 - 1) := by
  refine ⟨?_, ?_, ?_, ?_, ?_, ?_, ?_⟩
  · intro h
    have : Atoi (Get raw) = 0 := by rw [h]; exact Atoi_empty
    rw [this, if_pos rfl]
  · intro s h hd hl
    have : Atoi (Get raw) = 0 := by rw [h]; exact Atoi_of_syntax_error hd hl
    rw [this, if_pos rfl]
  · intro s h hd
    have : Atoi (Get raw) = 0 := by
      rw [h]
      exact Atoi_of_decimal_range hd (by norm_num) (by norm_num)
    rw [this, if_pos rfl]
  · intro s v h hd hv h0 h1
    have : Atoi (Get raw) = v := by rw [h]; exact Atoi_of_decimal_range hd h0 h1
    rw [this, if_neg hv]
  · intro s v h hd h1
    have : Atoi (Get raw) = 2 ^ 63 - 1 := by rw [h]; exact Atoi_of_decimal_above hd h1
    rw [this, if_neg (by norm_num)]
  · intro s v h hd h1
    have : Atoi (Get raw) = -(2 ^ 63) := by rw [h]; exact Atoi_of_decimal_below hd h1
    rw [this, if_neg (by norm_num)]
  · intro s h hd hl
    have : Atoi (Get raw) = if hasMinus s then -(2 ^ 63) else 2 ^ 63 - 1 := by
      rw [h]
      exact Atoi_of_leading_overflow hd hl
    rw [this]
    by_cases hm : hasMinus s = true
    · rw [if_pos hm, if_neg (by norm_num)]
    · rw [if_neg hm, if_neg (by norm_num)]

/-- C18, counterexample. The supplied `freeMin=99999999999999999999` is a decimal integer other
than 0, yet both handlers evaluate with `freeMin = 9223372036854775807`; likewise a supplied
`stress=-99999999999999999999` gives `stress = -9223372036854775808`. The supplied
`freeMin=99999999999999999999x` is not an integer, yet the handlers do not fall back to 30:
`strconv.Atoi` meets the overflow before the `x` and returns 9223372036854775807. -/
theorem C18_out_of_range_query_value :
    decimal "99999999999999999999" = some 99999999999999999999 ∧
      (orderContext (some "99999999999999999999") (some "-99999999999999999999")).1 =
        9223372036854775807 ∧
      (nextContext (some "99999999999999999999") (some "-99999999999999999999")).1 =
        9223372036854775807 ∧
      (orderContext (some "99999999999999999999") (some "-99999999999999999999")).2 =
        -9223372036854775808 ∧
      decimal "99999999999999999999x" = none ∧
      (orderContext (some "99999999999999999999x") none).1 = 9223372036854775807 ∧
      (nextContext (some "99999999999999999999x") none).1 = 9223372036854775807 := by
  decide

theorem orderContext_fst (freeMin stress : Option String) :
    (orderContext freeMin stress).1 =
      if Atoi (Get freeMin) = 0 then 30 else Atoi (Get freeMin) := rfl

theorem orderContext_snd (freeMin stress : Option String) :
    (orderContext freeMin stress).2 =
      if Atoi (Get stress) = 0 then 3 else Atoi (Get stress) := rfl

/-- C18, amended. Both handlers derive the same context from the same query parameters and
evaluate the scores with it. `freeMin` is 30 when the parameter is missing, when it denotes 0,
and when it is not a decimal integer (an optional sign, then digits only) and its leading
digits do not exceed 2^64 - 1. Every other supplied integer within the 64-bit `int` range is
used unchanged. A supplied integer outside that range is replaced by the nearest bound of the
range, 2^63 - 1 or -2^63; so is a string that is not a decimal integer but whose leading digits
exceed 2^64 - 1, the bound being -2^63 after a minus sign and 2^63 - 1 otherwise. The same holds
for `stress` with the default 3. -/
theorem C18_query_context (wall : Time) (parse : String → Option Time) (tasks : List Task)
    (now : Time) (freeMin stress : Option String) :
    nextContext freeMin stress = orderContext freeMin stress ∧
      orderHandler wall parse tasks now freeMin stress =
        listTasks wall parse tasks now (orderContext freeMin stress).1
          (orderContext freeMin stress).2 ∧
      nextHandler wall parse tasks now freeMin stress =
        nextTask wall parse tasks now (orderContext freeMin stress).1
          (orderContext freeMin stress).2 ∧
      (freeMin = none → (orderContext freeMin stress).1 = 30) ∧
      (∀ s, freeMin = some s → decimal s = none → leadingValue s ≤ 2 ^ 64 - 1 →
        (orderContext freeMin stress).1 = 30) ∧
      (∀ s, freeMin = some s → decimal s = some 0 → (orderContext freeMin stress).1 = 30) ∧
      (∀ s v, freeMin = some s → decimal s = some v → v ≠ 0 → -(2 ^ 63) ≤ v → v < 2 ^ 63 →
        (orderContext freeMin stress).1 = v) ∧
      (∀ s v, freeMin = some s → decimal s = some v → 2 ^ 63 ≤ v →
        (orderContext freeMin stress).1 = 2 ^ 63 - 1) ∧
      (∀ s v, freeMin = some s → decimal s = some v → v < -(2 ^ 63) →
        (orderContext freeMin stress).1 = -(2 ^ 63)) ∧
      (∀ s, freeMin = some s → decimal s = none → 2 ^ 64 - 1 < leadingValue s →
        (orderContext freeMin stress).1 = if hasMinus s then -(2 ^ 63) else 2 ^ 63 - 1) ∧
      (stress = none → (orderContext freeMin stress).2 = 3) ∧
      (∀ s, stress = some s → decimal s = none → leadingValue s ≤ 2 ^ 64 - 1 →
        (orderContext freeMin stress).2 = 3) ∧
      (∀ s, stress = some s → decimal s = some 0 → (orderContext freeMin stress).2 = 3) ∧
      (∀ s v, stress = some s → decimal s = some v → v ≠ 0 → -(2 ^ 63) ≤ v → v < 2 ^ 63 →
        (orderContext freeMin stress).2 = v) ∧
      (∀ s v, stress = some s → decimal s = some v → 2 ^ 63 ≤ v →
        (orderContext freeMin stress).2 = 2 ^ 63 - 1) ∧
      (∀ s v, stress = some s → decimal s = some v → v < -(2 ^ 63) →
        (orderContext freeMin stress).2 = -(2 ^ 63)) ∧
      (∀ s, stress = some s → decimal s = none → 2 ^ 64 - 1 < leadingValue s →
        (orderContext freeMin stress).2 = if hasMinus s then -(2 ^ 63) else 2 ^ 63 - 1) := by
  obtain ⟨f1, f2, f3, f4, f5, f6, f7⟩ := defaulted_cases freeMin 30
  obtain ⟨s1, s2, s3, s4, s5, s6, s7⟩ := defaulted_cases stress 3
  exact ⟨rfl, rfl, rfl, f1, f2, f3, f4, f5, f6, f7, s1, s2, s3, s4, s5, s6, s7⟩

/-- Evaluation of C18 (amended) on sample queries: no parameters, `freeMin=abc&stress=0`,
`freeMin=-45&stress=5`, and `freeMin=99999999999999999999x&stress=-99999999999999999999`. -/
theorem C18_query_context_witness :
    orderContext none none = (30, 3) ∧
      orderContext (some "abc") (some "0") = (30, 3) ∧
      (orderContext (some "-45") (some "5")).1 = -45 ∧
      (orderContext (some "-45") (some "5")).2 = 5 ∧
      (orderContext (some "99999999999999999999x") (some "-99999999999999999999")).1 =
        (if hasMinus "99999999999999999999x" then -(2 ^ 63) else 2 ^ 63 - 1) ∧
      (orderContext (some "99999999999999999999x") (some "-99999999999999999999")).2 =
        -(2 ^ 63) :=
  have h := C18_query_context year2026 parseSample [] year2026 (some "-45") (some "5")
  have g := C18_query_context year2026 parseSample [] year2026
    (some "99999999999999999999x") (some "-99999999999999999999")
  ⟨by decide, by decide,
    h.2.2.2.2.2.2.1 "-45" (-45) rfl (by decide) (by decide) (by decide) (by decide),
    h.2.2.2.2.2.2.2.2.2.2.2.2.2.1 "5" 5 rfl (by decide) (by decide) (by decide) (by decide),
    g.2.2.2.2.2.2.2.2.2.1 "99999999999999999999x" rfl (by decide) (by decide),
    g.2.2.2.2.2.2.2.2.2.2.2.2.2.2.2.1 "-99999999999999999999" (-99999999999999999999) rfl
      (by decide) (by decide)⟩

/-! ## C19: lock discipline -/

theorem runSync_append (st : Option Held) (l₁ l₂ : List SyncOp) :
    runSync st (l₁ ++ l₂) = runSync (runSync st l₁) l₂ := by
  unfold runSync
  rw [List.foldl_append]

theorem runSync_replicate_read_shared (n : Nat) :
    runSync (some Held.shared) (List.replicate n SyncOp.read) = some Held.shared := by
  induction n with
  | zero => rfl
  | succ k ih =>
    rw [List.replicate_succ]
    show runSync (some Held.shared) (List.replicate k SyncOp.read) = some Held.shared
    exact ih

theorem runSync_replicate_write_exclusive (n : Nat) :
    runSync (some Held.exclusive) (List.replicate n SyncOp.write) = some Held.exclusive := by
  induction n with
  | zero => rfl
  | succ k ih =>
    rw [List.replicate_succ]
    show runSync (some Held.exclusive) (List.replicate k SyncOp.write) = some Held.exclusive
    exact ih

theorem runSync_saveOps (n : Nat) : runSync (some Held.nothing) (saveOps n) = some Held.nothing := by
  unfold saveOps
  rw [runSync_append, runSync_append]
  have h1 : runSync (some Held.nothing) [SyncOp.rlock, SyncOp.read] = some Held.shared := rfl
  rw [h1, runSync_replicate_read_shared]
  rfl

/-- C19. Operations of each code path on the mutex and the map, for a map of any size `n`.
`load`, `save`, `/order` and `/next` access the map only while holding the lock they need. The
`POST /tasks` and `DELETE /tasks/:id` handlers do not: after `Unlock` and `save()` they read
`len(tasks)` for the count while holding nothing. -/
theorem C19_count_read_without_lock (n : Nat) :
    lockDisciplined (loadOps n) = true ∧
      lockDisciplined (saveOps n) = true ∧
      lockDisciplined (orderOps n) = true ∧
      lockDisciplined (nextOps n) = true ∧
      lockDisciplined (upsertOps n) = false ∧
      lockDisciplined (deleteOps n) = false ∧
      runSync (some Held.nothing) ([SyncOp.lock, SyncOp.write, SyncOp.unlock] ++ saveOps n) =
        some Held.nothing ∧
      stepSync Held.nothing SyncOp.read = none := by
  have hload : runSync (some Held.nothing) (loadOps n) = some Held.nothing := by
    unfold loadOps
    rw [runSync_append, runSync_append]
    have h1 : runSync (some Held.nothing) [SyncOp.lock, SyncOp.write] = some Held.exclusive := rfl
    rw [h1, runSync_replicate_write_exclusive]
    rfl
  have hnext : runSync (some Held.nothing) (nextOps n) = some Held.nothing := by
    unfold nextOps
    rw [runSync_append, runSync_append]
    have h1 : runSync (some Held.nothing) [SyncOp.rlock] = some Held.shared := rfl
    rw [h1, runSync_replicate_read_shared]
    rfl
  have hprefix : runSync (some Held.nothing)
      ([SyncOp.lock, SyncOp.write, SyncOp.unlock] ++ saveOps n) = some Held.nothing := by
    rw [runSync_append]
    have h1 : runSync (some Held.nothing) [SyncOp.lock, SyncOp.write, SyncOp.unlock] =
        some Held.nothing := rfl
    rw [h1, runSync_saveOps]
  have hups : runSync (some Held.nothing) (upsertOps n) = none := by
    unfold upsertOps
    rw [runSync_append, hprefix]
    rfl
  have hdel : runSync (some Held.nothing) (deleteOps n) = none := by
    unfold deleteOps
    rw [runSync_append, hprefix]
    rfl
  refine ⟨?_, ?_, ?_, ?_, ?_, ?_, hprefix, rfl⟩
  · simp [lockDisciplined, hload]
  · simp [lockDisciplined, runSync_saveOps]
  · simp [lockDisciplined, orderOps, runSync_saveOps]
  · simp [lockDisciplined, hnext]
  · simp [lockDisciplined, hups]
  · simp [lockDisciplined, hdel]

/-! ## C20: the shape of the urgency with a due date -/

theorem minLeftR_of_saturated {wall d : Int} (h : 2 ^ 63 - 1 < d - wall) :
    minLeftR wall d = ((2 ^ 63 - 1 : Int) : ℝ) / 60000000000 := by
  have hu : Until wall d = 2 ^ 63 - 1 := by
    unfold Until Sub
    split_ifs <;> omega
  unfold minLeftR
  rw [hu, if_neg (not_lt.mpr (div_nonneg (by norm_num) (by norm_num)))]

theorem Until_mono (wall : Int) {d d' : Int} (h : d ≤ d') : Until wall d ≤ Until wall d' := by
  unfold Until Sub
  split_ifs <;> omega

theorem minLeftR_mono (wall : Int) {d d' : Int} (h : d ≤ d') :
    minLeftR wall d ≤ minLeftR wall d' := by
  have hu : ((Until wall d : Int) : ℝ) ≤ ((Until wall d' : Int) : ℝ) := by
    exact_mod_cast Until_mono wall h
  have hq : ((Until wall d : Int) : ℝ) / 60000000000 ≤ ((Until wall d' : Int) : ℝ) / 60000000000 :=
    div_le_div_of_nonneg_right hu (by norm_num)
  unfold minLeftR
  split_ifs with h1 h2 h2
  · exact le_refl _
  · exact not_lt.mp h2
  · linarith
  · exact hq

/-- The time-pressure term `1 / log10(10 + m)` lies in (0, 1] for `m ≥ 0`. -/
theorem timePressure_bounds {m : ℝ} (hm : 0 ≤ m) :
    0 < 1 / Real.logb 10 (10 + m) ∧ 1 / Real.logb 10 (10 + m) ≤ 1 := by
  have hl : (1 : ℝ) ≤ Real.logb 10 (10 + m) := logb10_ge_one (by linarith)
  constructor
  · exact div_pos (by norm_num) (by linarith)
  · rw [div_le_one (by linarith)]
    exact hl

/-- The time-pressure term does not grow with the minutes left. -/
theorem timePressure_antitone {m m' : ℝ} (hm : 0 ≤ m) (h : m ≤ m') :
    1 / Real.logb 10 (10 + m') ≤ 1 / Real.logb 10 (10 + m) := by
  have hl : (1 : ℝ) ≤ Real.logb 10 (10 + m) := logb10_ge_one (by linarith)
  have hll : Real.logb 10 (10 + m) ≤ Real.logb 10 (10 + m') :=
    Real.logb_le_logb_of_le (by norm_num) (by linarith) (by linarith)
  exact one_div_le_one_div_of_le (by linarith) hll

/-- C20, counterexample. (a) At the clock reading 2020-01-01, with zero minutes remaining,
`taskMinImportance` (importance -2^63) has urgency 1.5 and `taskNextImportance` (importance
-2^63 + 1) has urgency 0: the urgency decreases when the importance grows, and the first value
is not `clamp(1/log10(10 + 0) + 0.2*(importance - 1), 0, 1.5)`. (b) `taskVeryFar`, due
196704000 minutes after the clock reading 2026-01-01, does not have the urgency
`clamp(1/log10(10 + 196704000) + 0.2*(1 - 1), 0, 1.5)`: `time.Until` caps the difference at
2^63 - 1 nanoseconds. -/
theorem C20_urgency_shape_counterexample :
    taskMinImportance.Importance ≤ taskNextImportance.Importance ∧
      urgencyScore year2020 parseSample taskMinImportance year2020 = fin 1.5 ∧
      urgencyScore year2020 parseSample taskNextImportance year2020 = fin 0 ∧
      (urgencyScore year2020 parseSample taskMinImportance year2020).le
        (urgencyScore year2020 parseSample taskNextImportance year2020) = false ∧
      (urgencyScore year2020 parseSample taskMinImportance year2020).ne
        (urgencyShapeSpec 0 taskMinImportance.Importance) = true ∧
      (urgencyScore year2026 parseSample taskVeryFar year2026).ne
        (urgencyShapeSpec 196704000 taskVeryFar.Importance) = true := by
  have h1 : urgencyScore year2020 parseSample taskMinImportance year2020 = fin 1.5 := by
    rw [urgencyScore_of_overdue year2020 parseSample taskMinImportance year2020 _ year2020 rfl
      parseSample_2020_01_01 (le_refl _)]
    have hw : wrap64 (taskMinImportance.Importance - 1) = 9223372036854775807 := by decide
    rw [hw, clampR_of_ge_hi (by norm_num) (by norm_num)]
  have h2 : urgencyScore year2020 parseSample taskNextImportance year2020 = fin 0 := by
    rw [urgencyScore_of_overdue year2020 parseSample taskNextImportance year2020 _ year2020 rfl
      parseSample_2020_01_01 (le_refl _)]
    have hw : wrap64 (taskNextImportance.Importance - 1) = -9223372036854775808 := by decide
    rw [hw, clampR_of_le_lo (by norm_num) (by norm_num)]
  have h3 : urgencyShapeSpec 0 taskMinImportance.Importance = fin 0 := by
    unfold urgencyShapeSpec
    rw [clamp_fin]
    congr 1
    apply clampR_of_le_lo (by norm_num)
    have hl : Real.logb 10 (10 + 0) = 1 := by rw [add_zero]; exact logb10_ten
    rw [hl]
    simp [taskMinImportance]
    norm_num
  have h4 : (urgencyScore year2026 parseSample taskVeryFar year2026).ne
      (urgencyShapeSpec 196704000 taskVeryFar.Importance) = true := by
    have hp : parseSample "2400-01-01T00:00:00Z" = some 13569465600000000000 := by decide
    rw [urgencyScore_of_due year2026 parseSample taskVeryFar year2026 _ 13569465600000000000 rfl hp,
      minLeftR_of_saturated (by decide)]
    have hw : wrap64 (taskVeryFar.Importance - 1) = 0 := by decide
    have hi : ((taskVeryFar.Importance : Int) : ℝ) = 1 := by simp [taskVeryFar]
    unfold urgencyShapeSpec
    rw [hw, hi, clamp_fin]
    have ha : (0 : ℝ) ≤ ((2 ^ 63 - 1 : Int) : ℝ) / 60000000000 :=
      div_nonneg (by norm_num) (by norm_num)
    have hab : ((2 ^ 63 - 1 : Int) : ℝ) / 60000000000 < 196704000 := by
      rw [div_lt_iff₀ (by norm_num)]
      norm_num
    have hba := timePressure_bounds ha
    have hbb := timePressure_bounds (m := 196704000) (by norm_num)
    have hlt : Real.logb 10 (10 + ((2 ^ 63 - 1 : Int) : ℝ) / 60000000000) <
        Real.logb 10 (10 + 196704000) :=
      Real.logb_lt_logb (by norm_num) (by linarith) (by linarith)
    have hpos : (0 : ℝ) < Real.logb 10 (10 + ((2 ^ 63 - 1 : Int) : ℝ) / 60000000000) := by
      have := logb10_ge_one (x := 10 + ((2 ^ 63 - 1 : Int) : ℝ) / 60000000000) (by linarith)
      linarith
    have hq : 1 / Real.logb 10 (10 + 196704000) <
        1 / Real.logb 10 (10 + ((2 ^ 63 - 1 : Int) : ℝ) / 60000000000) :=
      one_div_lt_one_div_of_lt hpos hlt
    rw [clampR_of_mem (v := 1 / Real.logb 10 (10 + ((2 ^ 63 - 1 : Int) : ℝ) / 60000000000) +
        0.2 * ((0 : Int) : ℝ)) (by push_cast; linarith [hba.1]) (by push_cast; linarith [hba.2]),
      clampR_of_mem (v := 1 / Real.logb 10 (10 + 196704000) + 0.2 * ((1 : ℝ) - 1))
        (by linarith [hbb.1]) (by linarith [hbb.2])]
    simp only [F64.ne_fin_fin, decide_eq_true_eq]
    push_cast
    intro he
    linarith
  refine ⟨by decide, h1, h2, ?_, ?_, h4⟩
  · rw [h1, h2]
    simp only [F64.le_fin_fin]
    norm_num
  · rw [h1, h3]
    simp only [F64.ne_fin_fin]
    norm_num

/-- C20, amended. Take a task with a parseable due date `d` not before the clock reading and
less than 2^63 nanoseconds after it, so that `m = (d - wall) / 60e9 ≥ 0` is the number of
minutes remaining. The time-pressure term `1/log10(10 + m)` lies in (0, 1]. If the importance
is not -2^63, the urgency equals `clamp(1/log10(10 + m) + 0.2*(importance - 1), 0, 1.5)`. A task
of the same importance with a later due date has a smaller or equal urgency, and a task with
the same due date and a greater or equal importance has a greater or equal urgency, provided
the smaller importance is not -2^63. -/
theorem C20_deadline_urgency_shape (wall : Int) (parse : String → Option Time) (t t' : Task)
    (now : Time) (s s' : String) (d d' : Int)
    (h : t.DueAt = some s) (hp : parse s = some d) (h0 : 0 ≤ d - wall) (h1 : d - wall < 2 ^ 63)
    (h' : t'.DueAt = some s') (hp' : parse s' = some d')
    (hlo : -(2 ^ 63) < t.Importance) (hhi : t.Importance < 2 ^ 63)
    (hhi' : t'.Importance < 2 ^ 63) :
    urgencyScore wall parse t now =
        urgencyShapeSpec (((d - wall : Int) : ℝ) / 60000000000) t.Importance ∧
      0 < 1 / Real.logb 10 (10 + ((d - wall : Int) : ℝ) / 60000000000) ∧
      1 / Real.logb 10 (10 + ((d - wall : Int) : ℝ) / 60000000000) ≤ 1 ∧
      (d ≤ d' → t'.Importance = t.Importance →
        (urgencyScore wall parse t' now).le (urgencyScore wall parse t now) = true) ∧
      (d' = d → t.Importance ≤ t'.Importance →
        (urgencyScore wall parse t now).le (urgencyScore wall parse t' now) = true) := by
  have hu := urgencyScore_of_due wall parse t now s d h hp
  have hu' := urgencyScore_of_due wall parse t' now s' d' h' hp'
  have hm := minLeftR_of_future h0 h1
  have hm0 : (0 : ℝ) ≤ ((d - wall : Int) : ℝ) / 60000000000 := by
    rw [← hm]
    exact minLeftR_nonneg wall d
  have hb := timePressure_bounds hm0
  refine ⟨?_, hb.1, hb.2, ?_, ?_⟩
  · rw [hu, hm, wrap64_of_range (by omega) (by omega)]
    unfold urgencyShapeSpec
    rw [clamp_fin]
    push_cast
    rfl
  · intro hdd hi
    rw [hu, hu', hi]
    simp only [F64.le_fin_fin, decide_eq_true_eq]
    apply clampR_mono 0 1.5 (by norm_num)
    have := timePressure_antitone (minLeftR_nonneg wall d) (minLeftR_mono wall hdd)
    linarith
  · intro hdd hi
    rw [hu, hu', hdd]
    simp only [F64.le_fin_fin, decide_eq_true_eq]
    apply clampR_mono 0 1.5 (by norm_num)
    rw [wrap64_of_range (by omega) (by omega), wrap64_of_range (by omega) (by omega)]
    have hc : ((t.Importance - 1 : Int) : ℝ) ≤ ((t'.Importance - 1 : Int) : ℝ) := by
      exact_mod_cast (by omega : t.Importance - 1 ≤ t'.Importance - 1)
    linarith

/-- Witness of C20 (amended): `taskDueFirst` and `taskDueSecond` (importance 3) ninety minutes
before the first due date. -/
theorem C20_deadline_urgency_shape_witness :
    urgencyScore (year2020 - ninetyMinutes) parseSample taskDueFirst year2026 =
        urgencyShapeSpec (((year2020 - (year2020 - ninetyMinutes) : Int) : ℝ) / 60000000000)
          taskDueFirst.Importance ∧
      (urgencyScore (year2020 - ninetyMinutes) parseSample taskDueSecond year2026).le
        (urgencyScore (year2020 - ninetyMinutes) parseSample taskDueFirst year2026) = true :=
  have h := C20_deadline_urgency_shape (year2020 - ninetyMinutes) parseSample taskDueFirst
    taskDueSecond year2026 _ _ year2020 1577923200000000000 rfl parseSample_2020_01_01
    (by decide) (by decide) rfl parseSample_2020_01_02 (by decide) (by decide) (by decide)
  ⟨h.1, h.2.2.2.1 (by decide) rfl⟩

end TaskScheduler
